import Mathlib

/-!
Verification development for the API version lifecycle service of the
APITize repository (the `APIVersioningService` class): semantic-version
handling, the version store, lifecycle policies, compatibility analysis
and migration planning.  The DynamoDB tables and the S3 bucket used by the
service are modelled as explicit in-memory stores threaded through every
operation; timestamps are modelled as natural numbers (milliseconds since
the epoch, the value of `Date.now()`); each `throw new Error(...)` site is
modelled as an `Except.error` with a dedicated error constructor.
-/

/-- A parsed semantic version.  The service only ever handles plain
`major.minor.patch` version strings; prerelease and build metadata are
used nowhere in the repository and are not modelled. -/
structure Semver where
  major : Nat
  minor : Nat
  patch : Nat
  deriving DecidableEq, Repr

/-- Splits a character list on a separator character (the tokenization the
semver grammar applies to the dots of a version string). -/
def splitOnChar (sep : Char) : List Char → List (List Char)
  | [] => [[]]
  | c :: cs =>
    let rest := splitOnChar sep cs
    if c = sep then [] :: rest
    else
      match rest with
      | [] => [[c]]
      | grp :: groups => (c :: grp) :: groups

/-- Numeric value of a list of decimal digit characters. -/
def natOfDigits : List Char → Nat → Nat
  | [], acc => acc
  | c :: cs, acc => natOfDigits cs (acc * 10 + (c.toNat - 48))

/-- One numeric identifier of a semantic version: nonempty, all decimal
digits, no leading zero (the grammar enforced by `semver.valid`). -/
def parseNumericId (cs : List Char) : Option Nat :=
  if cs = [] then none
  else if cs.all Char.isDigit then
    if 1 < cs.length ∧ cs.head? = some '0' then none
    else some (natOfDigits cs 0)
  else none

/-- `semver.valid`: a version string is valid iff it is three dot-separated
numeric identifiers; returns the parsed triple. -/
def semverValid (s : String) : Option Semver :=
  match (splitOnChar '.' s.data).map parseNumericId with
  | [some a, some b, some c] => some { major := a, minor := b, patch := c }
  | _ => none

/-- Strict semantic-version precedence (lexicographic on the triple),
the order computed by `semver.compare`. -/
def semverLt (a b : Semver) : Prop :=
  a.major < b.major ∨
    (a.major = b.major ∧
      (a.minor < b.minor ∨ (a.minor = b.minor ∧ a.patch < b.patch)))

instance semverLtDec : DecidableRel semverLt := fun a b => by
  unfold semverLt; infer_instance

/-- Reflexive semantic-version precedence. -/
def semverLe (a b : Semver) : Prop :=
  semverLt a b ∨ a = b

instance semverLeDec : DecidableRel semverLe := fun a b => by
  unfold semverLe; infer_instance

/-- Compatibility level of a version relative to its predecessor
(the string union `patch | minor | major` of the source). -/
inductive CompatLevel
  | patch
  | minor
  | major
  deriving DecidableEq, Repr

/-- `semver.diff` restricted to plain triples: `none` when the two
versions are equal, otherwise the highest version component in which they
differ. -/
def semverDiff (a b : Semver) : Option CompatLevel :=
  if a = b then none
  else if a.major ≠ b.major then some CompatLevel.major
  else if a.minor ≠ b.minor then some CompatLevel.minor
  else some CompatLevel.patch

/-- Parsed form of a stored version string, used where the service feeds
record fields back into `semver.compare`, `semver.rcompare` or
`semver.diff`.  The library throws on unparsable strings; every string
reaching these call sites was validated by `createVersion`, so the default
triple is inert. -/
def semverKey (s : String) : Semver :=
  (semverValid s).getD { major := 0, minor := 0, patch := 0 }

/-- Version status (the string union of the source). -/
inductive VersionStatus
  | draft
  | published
  | deprecated
  | retired
  deriving DecidableEq, Repr

/-- Severity of a breaking-change finding. -/
inductive Severity
  | low
  | medium
  | high
  | critical
  deriving DecidableEq, Repr

/-- Kind of a breaking-change finding. -/
inductive BreakingChangeType
  | removedEndpoint
  | changedSchema
  | addedRequiredField
  | changedResponseFormat
  deriving DecidableEq, Repr

/-- The `responses` object of one operation, as far as the analyzer reads
it: `content200` is `JSON.stringify(responses[200]?.content)`, with `none`
standing for the JavaScript value `undefined`. -/
structure OperationResponses where
  content200 : Option String
  deriving DecidableEq, Repr

/-- One operation object of a path item; `responses := none` models an
operation without a `responses` property. -/
structure Operation where
  responses : Option OperationResponses
  deriving DecidableEq, Repr

/-- The `info` object of an OpenAPI specification (metadata, never read by
any service code path; the optional contact and license sub-objects are
collapsed into the strings they would serialize to). -/
structure SpecInfo where
  title : String
  description : String
  version : String
  deriving DecidableEq, Repr

/-- An OpenAPI specification document.  `paths` is the ordered key/value
map of the JavaScript object: a list of (path, path item) pairs with
unique keys, each path item a list of (method, operation) pairs. -/
structure Specification where
  openapi : String
  info : SpecInfo
  servers : List (String × String)
  paths : List (String × List (String × Operation))
  components : Option (List (String × String))
  deriving DecidableEq, Repr

/-- The metrics snapshot stored on every version record. -/
structure VersionMetrics where
  requests : Nat
  errors : Nat
  responseTime : Nat
  uptime : Nat
  adoption : Nat
  deriving DecidableEq, Repr

/-- Deployment target environment. -/
inductive DeployEnv
  | development
  | staging
  | production
  deriving DecidableEq, Repr

/-- Resource sizing of a deployment. -/
structure DeploymentResources where
  cpu : String
  memory : String
  deriving DecidableEq, Repr

/-- Health-check settings of a deployment. -/
structure DeploymentHealthCheck where
  path : String
  interval : Nat
  timeout : Nat
  deriving DecidableEq, Repr

/-- Deployment descriptor of a version record (informational only). -/
structure Deployment where
  environment : DeployEnv
  endpoint : String
  containerImage : String
  replicas : Nat
  resources : DeploymentResources
  healthCheck : DeploymentHealthCheck
  deriving DecidableEq, Repr

/-- Deprecation plan attached when a version is deprecated.
`supportEndDate` is a timestamp in milliseconds. -/
structure DeprecationPlan where
  reason : String
  migrationGuide : String
  supportEndDate : Nat
  replacementVersion : Option String
  deriving DecidableEq, Repr

/-- One version record of the `-api-versions` table
(the `APIVersion` interface of the source). -/
structure APIVersion where
  apiId : String
  tenantId : String
  version : String
  status : VersionStatus
  createdAt : Nat
  publishedAt : Option Nat
  deprecatedAt : Option Nat
  retiredAt : Option Nat
  createdBy : String
  changelog : String
  breakingChanges : Bool
  compatibilityLevel : CompatLevel
  specification : Specification
  deployment : Deployment
  metrics : VersionMetrics
  deprecationPlan : Option DeprecationPlan
  deriving DecidableEq, Repr

/-- Backward-compatibility settings of a lifecycle policy. -/
structure BackwardCompatibility where
  required : Bool
  testSuite : String
  deriving DecidableEq, Repr

/-- Breaking-change policy selector. -/
inductive BreakingChangePolicy
  | majorOnly
  | allowed
  | forbidden
  deriving DecidableEq, Repr

/-- The `policy` object of a lifecycle policy; `supportPeriod` and
`retirementPeriod` are day counts, `deprecationWarning` a day count. -/
structure LifecyclePolicyCore where
  maxVersions : Nat
  supportPeriod : Nat
  deprecationWarning : Nat
  autoRetirement : Bool
  retirementPeriod : Nat
  breakingChangePolicy : BreakingChangePolicy
  backwardCompatibility : BackwardCompatibility
  deriving DecidableEq, Repr

/-- One notification channel configuration. -/
structure NotificationChannel where
  enabled : Bool
  recipients : List String
  template : String
  deriving DecidableEq, Repr

/-- Notification configuration of a lifecycle policy. -/
structure PolicyNotifications where
  deprecation : NotificationChannel
  retirement : NotificationChannel
  deriving DecidableEq, Repr

/-- One record of the `-api-lifecycle-policies` table. -/
structure APILifecyclePolicy where
  tenantId : String
  apiId : String
  policy : LifecyclePolicyCore
  notifications : PolicyNotifications
  deriving DecidableEq, Repr

/-- One breaking-change finding of a compatibility report. -/
structure BreakingChange where
  type : BreakingChangeType
  path : String
  description : String
  severity : Severity
  impact : String
  mitigation : Option String
  deriving DecidableEq, Repr

/-- One non-breaking warning of a compatibility report. -/
structure CompatWarning where
  type : String
  description : String
  recommendation : String
  deriving DecidableEq, Repr

/-- The report returned by `compareVersions`. -/
structure CompatibilityReport where
  version1 : String
  version2 : String
  compatible : Bool
  breakingChanges : List BreakingChange
  warnings : List CompatWarning
  score : Int
  deriving DecidableEq, Repr

/-- Migration strategy selector. -/
inductive MigrationStrategy
  | blueGreen
  | canary
  | rolling
  | immediate
  deriving DecidableEq, Repr

/-- Type tag of a migration step. -/
inductive StepType
  | preparation
  | deployment
  | verification
  | cleanup
  deriving DecidableEq, Repr

/-- Status of a migration step. -/
inductive StepStatus
  | pending
  | running
  | completed
  | failed
  | skipped
  deriving DecidableEq, Repr

/-- Validation flags of a migration step. -/
structure StepValidation where
  healthCheck : Bool
  contractTests : Bool
  performanceTests : Bool
  deriving DecidableEq, Repr

/-- One step of a migration plan. -/
structure MigrationStep where
  id : String
  name : String
  description : String
  type : StepType
  status : StepStatus
  duration : Option Nat
  startedAt : Option Nat
  completedAt : Option Nat
  dependencies : List String
  commands : List String
  validation : StepValidation
  deriving DecidableEq, Repr

/-- Status of a migration plan. -/
inductive PlanStatus
  | planned
  | inProgress
  | completed
  | failed
  deriving DecidableEq, Repr

/-- Rollback provisions of a migration plan. -/
structure RollbackPlan where
  enabled : Bool
  conditions : List String
  steps : List String
  deriving DecidableEq, Repr

/-- Kind of a validation test. -/
inductive TestType
  | contract
  | integration
  | performance
  | security
  deriving DecidableEq, Repr

/-- One validation test descriptor. -/
structure ValidationTest where
  name : String
  type : TestType
  endpoint : String
  method : String
  expectedStatus : Nat
  expectedResponse : Option String
  timeout : Nat
  retries : Nat
  deriving DecidableEq, Repr

/-- The validation bundle of a migration plan. -/
structure PlanValidation where
  preDeployment : List ValidationTest
  postDeployment : List ValidationTest
  contractTests : List String
  deriving DecidableEq, Repr

/-- Execution metrics of a migration plan. -/
structure PlanMetrics where
  successRate : Nat
  errorRate : Nat
  performanceImpact : Nat
  deriving DecidableEq, Repr

/-- One record of the `-migration-plans` table
(the `MigrationPlan` interface of the source). -/
structure MigrationPlan where
  id : String
  fromVersion : String
  toVersion : String
  apiId : String
  tenantId : String
  status : PlanStatus
  createdAt : Nat
  startedAt : Option Nat
  completedAt : Option Nat
  strategy : MigrationStrategy
  steps : List MigrationStep
  rollbackPlan : RollbackPlan
  validation : PlanValidation
  metrics : PlanMetrics
  deriving DecidableEq, Repr

/-- One object of the S3 specification bucket, stored under the key
built from (tenantId, apiId, version). -/
structure S3SpecObject where
  tenantId : String
  apiId : String
  version : String
  createdAt : Nat
  specification : Specification
  deriving DecidableEq, Repr

/-- The external stores the service operates on: the two DynamoDB tables
for versions and lifecycle policies, the migration-plans table, and the
S3 bucket of specification documents. -/
structure StoreState where
  versions : List APIVersion
  policies : List APILifecyclePolicy
  migrationPlans : List MigrationPlan
  specObjects : List S3SpecObject
  deriving DecidableEq, Repr

/-- Error taxonomy of the service; each constructor corresponds to one
`throw new Error(...)` site. -/
inductive VersionError
  | invalidVersionFormat
  | duplicateVersion
  | versionNotFound
  | invalidTransition
  deriving DecidableEq, Repr

/-- `getVersion`: `GetItemCommand` on the versions table with key
(apiId, version); returns the record or `none`. -/
def getVersion : List APIVersion → String → String → Option APIVersion
  | [], _, _ => none
  | v :: vs, apiId, version =>
    if v.apiId = apiId ∧ v.version = version then some v
    else getVersion vs apiId version

/-- `getVersions`: `QueryCommand` on the partition key apiId; all records
of one api. -/
def getVersions (vs : List APIVersion) (apiId : String) : List APIVersion :=
  vs.filter (fun v => decide (v.apiId = apiId))

/-- `getLatestVersion`: sorts the records of the api by descending
semantic-version precedence (`semver.rcompare`) and returns the first
one; modelled directly as the precedence-maximal record (for a store with
distinct version strings the two descriptions agree). -/
def getLatestVersion (vs : List APIVersion) (apiId : String) : Option APIVersion :=
  (getVersions vs apiId).foldl
    (fun acc v =>
      match acc with
      | none => some v
      | some b => if semverLt (semverKey b.version) (semverKey v.version) then some v else some b)
    none

/-- `PutItemCommand` on the versions table: replaces the record with the
same key if one exists, appends otherwise. -/
def putVersion (vs : List APIVersion) (v : APIVersion) : List APIVersion :=
  if (getVersion vs v.apiId v.version).isSome then
    vs.map (fun w => if w.apiId = v.apiId ∧ w.version = v.version then v else w)
  else vs ++ [v]

/-- `storeSpecification`: S3 `PutObjectCommand` of the OpenAPI document
under the key built from (tenantId, apiId, version): replace by key or
insert. -/
def storeSpecification (s : StoreState) (v : APIVersion) : StoreState :=
  let obj : S3SpecObject :=
    { tenantId := v.tenantId, apiId := v.apiId, version := v.version
      createdAt := v.createdAt, specification := v.specification }
  let replaced := s.specObjects.map
    (fun o =>
      if o.tenantId = v.tenantId ∧ o.apiId = v.apiId ∧ o.version = v.version then obj else o)
  if s.specObjects.any
      (fun o => decide (o.tenantId = v.tenantId ∧ o.apiId = v.apiId ∧ o.version = v.version)) then
    { s with specObjects := replaced }
  else { s with specObjects := s.specObjects ++ [obj] }

/-- `getLifecyclePolicy`: `GetItemCommand` on the lifecycle-policies table
with key apiId. -/
def getLifecyclePolicy (ps : List APILifecyclePolicy) (apiId : String) :
    Option APILifecyclePolicy :=
  ps.find? (fun p => decide (p.apiId = apiId))

/-- `UpdateItemCommand` semantics on the versions table: rewrite the
record carrying the given key with the update function, leave every other
record alone. -/
def updateVersionRecord (vs : List APIVersion) (apiId version : String)
    (f : APIVersion → APIVersion) : List APIVersion :=
  vs.map (fun w => if w.apiId = apiId ∧ w.version = version then f w else w)

/-- The record update performed by a successful `deprecateVersion`. -/
def depUpdate (now : Nat) (plan : Option DeprecationPlan) (w : APIVersion) : APIVersion :=
  { w with status := VersionStatus.deprecated, deprecatedAt := some now
           deprecationPlan := plan }

/-- `deprecateVersion`: fails with `versionNotFound` when no record has
the key, with `invalidTransition` unless the current status is exactly
published; on success the `UpdateItemCommand` sets the status to
deprecated, records `deprecatedAt` and attaches the deprecation plan.
The notification side effect touches no store.  On failure the returned
state is the input state. -/
def deprecateVersion (s : StoreState) (now : Nat) (apiId version : String)
    (plan : Option DeprecationPlan) : Except VersionError Unit × StoreState :=
  match getVersion s.versions apiId version with
  | none => (Except.error VersionError.versionNotFound, s)
  | some apiVersion =>
    if apiVersion.status ≠ VersionStatus.published then
      (Except.error VersionError.invalidTransition, s)
    else
      (Except.ok (),
        { s with versions := updateVersionRecord s.versions apiId version (depUpdate now plan) })

/-- `retireVersion`: fails with `versionNotFound` when no record has the
key, with `invalidTransition` unless the current status is exactly
deprecated; on success the `UpdateItemCommand` sets the status to retired
and records `retiredAt`.  The deployment-removal side effect touches no
store.  On failure the returned state is the input state. -/
def retireVersion (s : StoreState) (now : Nat) (apiId version : String) :
    Except VersionError Unit × StoreState :=
  match getVersion s.versions apiId version with
  | none => (Except.error VersionError.versionNotFound, s)
  | some apiVersion =>
    if apiVersion.status ≠ VersionStatus.deprecated then
      (Except.error VersionError.invalidTransition, s)
    else
      let retireUpd : APIVersion → APIVersion :=
        fun w => { w with status := VersionStatus.retired, retiredAt := some now }
      (Except.ok (), { s with versions := updateVersionRecord s.versions apiId version retireUpd })

/-- Ascending semantic-version order on version records, the comparator
`(a, b) => semver.compare(a.version, b.version)` passed to the sort in
`applyLifecyclePolicy`. -/
def semverLeV (a b : APIVersion) : Prop :=
  semverLe (semverKey a.version) (semverKey b.version)

instance semverLeVDec : DecidableRel semverLeV := fun a b => by
  unfold semverLeV; infer_instance

/-- The records of one api currently in status published
(`versions.filter(v => v.status === published)` of
`applyLifecyclePolicy`). -/
def activePublished (vs : List APIVersion) (apiId : String) : List APIVersion :=
  (getVersions vs apiId).filter (fun v => decide (v.status = VersionStatus.published))

/-- The deprecation plan `applyLifecyclePolicy` attaches: fixed reason and
migration guide, support end `supportPeriod` days (in milliseconds) after
now, the newly created version as replacement. -/
def lifecyclePlan (now supportPeriod : Nat) (replacement : String) : DeprecationPlan :=
  { reason := "Exceeded maximum version policy"
    migrationGuide := "Please migrate to the latest version"
    supportEndDate := now + supportPeriod * 24 * 60 * 60 * 1000
    replacementVersion := some replacement }

/-- Sequential `await this.deprecateVersion(...)` over the selected
versions: stops at the first failure (exception propagation), threading
the store state. -/
def deprecateEach (now : Nat) (plan : DeprecationPlan) :
    List APIVersion → StoreState → Except VersionError Unit × StoreState
  | [], s => (Except.ok (), s)
  | v :: rest, s =>
    match deprecateVersion s now v.apiId v.version (some plan) with
    | (Except.ok _, s') => deprecateEach now plan rest s'
    | (Except.error e, s') => (Except.error e, s')

/-- `applyLifecyclePolicy`: no-op without a configured policy; otherwise
counts the records of the api currently in status published and, when the
count exceeds `policy.maxVersions`, deprecates the excess oldest ones
(ascending semantic-version order) with the fixed plan whose
`supportEndDate` is now plus `supportPeriod` days (in milliseconds) and
whose `replacementVersion` is the newly created version. -/
def applyLifecyclePolicy (s : StoreState) (now : Nat) (version : APIVersion) :
    Except VersionError Unit × StoreState :=
  match getLifecyclePolicy s.policies version.apiId with
  | none => (Except.ok (), s)
  | some policy =>
    let activeVersions := activePublished s.versions version.apiId
    if policy.policy.maxVersions < activeVersions.length then
      let sortedVersions := List.insertionSort semverLeV activeVersions
      let toDeprecate := sortedVersions.take (activeVersions.length - policy.policy.maxVersions)
      deprecateEach now (lifecyclePlan now policy.policy.supportPeriod version.version) toDeprecate s
    else (Except.ok (), s)

/-- Caller-supplied part of a version record
(`Omit<APIVersion, createdAt | metrics>` in the source); the
`compatibilityLevel` field is present in the input type but overwritten
by the service. -/
structure VersionInput where
  apiId : String
  tenantId : String
  version : String
  status : VersionStatus
  publishedAt : Option Nat
  deprecatedAt : Option Nat
  retiredAt : Option Nat
  createdBy : String
  changelog : String
  breakingChanges : Bool
  compatibilityLevel : CompatLevel
  specification : Specification
  deployment : Deployment
  deprecationPlan : Option DeprecationPlan
  deriving DecidableEq, Repr

/-- The compatibility classification of `createVersion`: `semver.diff` of
the latest stored version of the api against the new version string (the
source hands `semver.diff` the raw strings, so the new string is parsed
here rather than reusing the validation result), mapped onto the three
levels with patch as the default branch and as the no-predecessor
default. -/
def compatLevelFor (vs : List APIVersion) (apiId versionStr : String) : CompatLevel :=
  match getLatestVersion vs apiId with
  | none => CompatLevel.patch
  | some latestVersion =>
    match semverDiff (semverKey latestVersion.version) (semverKey versionStr) with
    | some CompatLevel.major => CompatLevel.major
    | some CompatLevel.minor => CompatLevel.minor
    | _ => CompatLevel.patch

/-- The initial metrics snapshot `createVersion` persists. -/
def initialMetrics : VersionMetrics :=
  { requests := 0, errors := 0, responseTime := 0, uptime := 100, adoption := 0 }

/-- The record `createVersion` builds from the caller input: the input
fields, the computed compatibility level, `createdAt := now` and the
initial metrics snapshot. -/
def builtRecord (s : StoreState) (now : Nat) (input : VersionInput) : APIVersion :=
  { apiId := input.apiId, tenantId := input.tenantId, version := input.version
    status := input.status, createdAt := now
    publishedAt := input.publishedAt, deprecatedAt := input.deprecatedAt
    retiredAt := input.retiredAt, createdBy := input.createdBy
    changelog := input.changelog, breakingChanges := input.breakingChanges
    compatibilityLevel := compatLevelFor s.versions input.apiId input.version
    specification := input.specification, deployment := input.deployment
    metrics := initialMetrics
    deprecationPlan := input.deprecationPlan }

/-- `createVersion`: validates the version string, rejects duplicates,
classifies the compatibility level against the latest stored version of
the api via `semver.diff` (default patch), persists the record with the
caller-supplied status and the initial metrics snapshot
(requests 0, errors 0, responseTime 0, uptime 100, adoption 0), stores
the specification document, then applies the lifecycle policy.  The
returned state reflects every write performed before a failure. -/
def createVersion (s : StoreState) (now : Nat) (input : VersionInput) :
    Except VersionError APIVersion × StoreState :=
  match semverValid input.version with
  | none => (Except.error VersionError.invalidVersionFormat, s)
  | some _ =>
    match getVersion s.versions input.apiId input.version with
    | some _ => (Except.error VersionError.duplicateVersion, s)
    | none =>
      let version : APIVersion := builtRecord s now input
      let s1 : StoreState := { s with versions := putVersion s.versions version }
      let s2 : StoreState := storeSpecification s1 version
      match applyLifecyclePolicy s2 now version with
      | (Except.ok _, s3) => (Except.ok version, s3)
      | (Except.error e, s3) => (Except.error e, s3)

/-- `Object.keys(spec.paths)` of a specification. -/
def pathKeys (spec : Specification) : List String :=
  spec.paths.map Prod.fst

/-- `spec.paths[path]`, defaulting to the empty object. -/
def pathItem (spec : Specification) (path : String) : List (String × Operation) :=
  match spec.paths.find? (fun pr => decide (pr.1 = path)) with
  | some pr => pr.2
  | none => []

/-- `Object.keys` of one path item. -/
def methodKeys (item : List (String × Operation)) : List String :=
  item.map Prod.fst

/-- Lookup of one operation of a path item by method name. -/
def getOperation (item : List (String × Operation)) (method : String) : Option Operation :=
  (item.find? (fun pr => decide (pr.1 = method))).map Prod.snd

/-- ASCII uppercase of a method name (`method.toUpperCase()`). -/
def toUpperAscii (s : String) : String :=
  String.mk (s.data.map Char.toUpper)

/-- The finding pushed for a path present in the first specification but
absent from the second. -/
def removedEndpointChange (path : String) : BreakingChange :=
  { type := BreakingChangeType.removedEndpoint
    path := path
    description := "Endpoint " ++ path ++ " was removed"
    severity := Severity.critical
    impact := "Clients using this endpoint will fail"
    mitigation := some "Provide alternative endpoint or keep for backward compatibility" }

/-- The finding pushed when the serialized success-response content of a
shared path and method differs between the two specifications. -/
def changedResponseChange (method path : String) : BreakingChange :=
  { type := BreakingChangeType.changedResponseFormat
    path := toUpperAscii method ++ " " ++ path
    description := "Response format changed"
    severity := Severity.high
    impact := "Client parsing may fail"
    mitigation := some "Use content negotiation or versioned endpoints" }

/-- First analyzer pass: one removed-endpoint finding per path of the
first specification missing from the second. -/
def removedPart (spec1 spec2 : Specification) : List BreakingChange :=
  (pathKeys spec1).filterMap
    (fun path => if path ∈ pathKeys spec2 then none else some (removedEndpointChange path))

/-- Second analyzer pass: over the paths of the second specification
shared with the first, per shared method, one changed-response-format
finding whenever the serialized 200-response content differs. -/
def changedPart (spec1 spec2 : Specification) : List BreakingChange :=
  (pathKeys spec2).flatMap
    (fun path =>
      if path ∈ pathKeys spec1 then
        let item1 := pathItem spec1 path
        let item2 := pathItem spec2 path
        (methodKeys item2).filterMap
          (fun method =>
            if method ∈ methodKeys item1 then
              match (getOperation item1 method).bind Operation.responses,
                  (getOperation item2 method).bind Operation.responses with
              | some r1, some r2 =>
                if r1.content200 = r2.content200 then none
                else some (changedResponseChange method path)
              | _, _ => none
            else none)
      else [])

/-- `analyzeBreakingChanges`: the removed-endpoint pass followed by the
changed-response pass, in push order. -/
def analyzeBreakingChanges (spec1 spec2 : Specification) : List BreakingChange :=
  removedPart spec1 spec2 ++ changedPart spec1 spec2

/-- Fixed score deduction per finding severity. -/
def severityDeduction (sev : Severity) : Int :=
  match sev with
  | Severity.critical => 25
  | Severity.high => 15
  | Severity.medium => 10
  | Severity.low => 5

/-- Total deduction accumulated over a list of findings. -/
def totalDeduction (changes : List BreakingChange) : Int :=
  (changes.map (fun c => severityDeduction c.severity)).sum

/-- `compareVersions`: fails with `versionNotFound` when either record is
missing; otherwise builds the report from the analyzer output, with
`compatible` true exactly when no breaking change was found, empty
warnings, and the score floored at zero. -/
def compareVersions (s : StoreState) (apiId version1 version2 : String) :
    Except VersionError CompatibilityReport :=
  match getVersion s.versions apiId version1, getVersion s.versions apiId version2 with
  | some v1, some v2 =>
    let breakingChanges := analyzeBreakingChanges v1.specification v2.specification
    Except.ok
      { version1 := version1
        version2 := version2
        compatible := breakingChanges.isEmpty
        breakingChanges := breakingChanges
        warnings := []
        score := max 0 (100 - totalDeduction breakingChanges) }
  | _, _ => Except.error VersionError.versionNotFound

/-- The common preparation step opening every migration plan. -/
def prepStep : MigrationStep :=
  { id := "prep-1"
    name := "Pre-deployment Validation"
    description := "Run pre-deployment tests and validations"
    type := StepType.preparation
    status := StepStatus.pending
    duration := none, startedAt := none, completedAt := none
    dependencies := []
    commands := ["npm test", "npm run lint", "npm run security-check"]
    validation := { healthCheck := true, contractTests := true, performanceTests := false } }

/-- First blue-green deployment step. -/
def blueGreenDeploy1 : MigrationStep :=
  { id := "deploy-1"
    name := "Deploy Green Environment"
    description := "Deploy new version to green environment"
    type := StepType.deployment
    status := StepStatus.pending
    duration := none, startedAt := none, completedAt := none
    dependencies := ["prep-1"]
    commands := ["kubectl apply -f green-deployment.yaml"]
    validation := { healthCheck := true, contractTests := true, performanceTests := true } }

/-- Second blue-green deployment step. -/
def blueGreenDeploy2 : MigrationStep :=
  { id := "deploy-2"
    name := "Switch Traffic"
    description := "Switch traffic from blue to green"
    type := StepType.deployment
    status := StepStatus.pending
    duration := none, startedAt := none, completedAt := none
    dependencies := ["deploy-1"]
    commands := ["kubectl patch service api-service -p \x27...\x27"]
    validation := { healthCheck := true, contractTests := false, performanceTests := true } }

/-- First canary deployment step (10 percent of traffic). -/
def canaryDeploy1 : MigrationStep :=
  { id := "deploy-1"
    name := "Deploy Canary (10%)"
    description := "Deploy new version to 10% of traffic"
    type := StepType.deployment
    status := StepStatus.pending
    duration := none, startedAt := none, completedAt := none
    dependencies := ["prep-1"]
    commands := ["kubectl apply -f canary-10-deployment.yaml"]
    validation := { healthCheck := true, contractTests := true, performanceTests := true } }

/-- Second canary deployment step (50 percent of traffic). -/
def canaryDeploy2 : MigrationStep :=
  { id := "deploy-2"
    name := "Increase to 50%"
    description := "Increase canary traffic to 50%"
    type := StepType.deployment
    status := StepStatus.pending
    duration := none, startedAt := none, completedAt := none
    dependencies := ["deploy-1"]
    commands := ["kubectl apply -f canary-50-deployment.yaml"]
    validation := { healthCheck := true, contractTests := false, performanceTests := true } }

/-- Third canary deployment step (full traffic). -/
def canaryDeploy3 : MigrationStep :=
  { id := "deploy-3"
    name := "Full Deployment"
    description := "Route 100% traffic to new version"
    type := StepType.deployment
    status := StepStatus.pending
    duration := none, startedAt := none, completedAt := none
    dependencies := ["deploy-2"]
    commands := ["kubectl apply -f full-deployment.yaml"]
    validation := { healthCheck := true, contractTests := false, performanceTests := true } }

/-- The cleanup step closing every migration plan; its single dependency
is the identifier of the immediately preceding step. -/
def cleanupStep (dep : String) : MigrationStep :=
  { id := "cleanup-1"
    name := "Cleanup Old Resources"
    description := "Remove old deployment resources"
    type := StepType.cleanup
    status := StepStatus.pending
    duration := none, startedAt := none, completedAt := none
    dependencies := [dep]
    commands := ["kubectl delete deployment old-api-deployment"]
    validation := { healthCheck := false, contractTests := false, performanceTests := false } }

/-- `generateMigrationSteps`: the common preparation step, then the
strategy-specific deployment steps (empty for rolling and immediate, for
which the switch has no case), then the cleanup step depending on the
last step pushed so far.  The compatibility report parameter is accepted
and ignored, as in the source. -/
def generateMigrationSteps (strategy : MigrationStrategy)
    (compatibilityReport : CompatibilityReport) : List MigrationStep :=
  let deploySteps : List MigrationStep :=
    match strategy with
    | MigrationStrategy.blueGreen => [blueGreenDeploy1, blueGreenDeploy2]
    | MigrationStrategy.canary => [canaryDeploy1, canaryDeploy2, canaryDeploy3]
    | MigrationStrategy.rolling => []
    | MigrationStrategy.immediate => []
  let steps := prepStep :: deploySteps
  let lastId :=
    match steps.getLast? with
    | some st => st.id
    | none => ""
  steps ++ [cleanupStep lastId]

/-- The health-check validation test. -/
def healthCheckTest : ValidationTest :=
  { name := "Health Check", type := TestType.integration
    endpoint := "/health", method := "GET", expectedStatus := 200
    expectedResponse := none, timeout := 5000, retries := 3 }

/-- The contract validation test. -/
def apiCompatibilityTest : ValidationTest :=
  { name := "API Compatibility", type := TestType.contract
    endpoint := "/api/v1/test", method := "GET", expectedStatus := 200
    expectedResponse := none, timeout := 10000, retries := 2 }

/-- The performance validation test added after deployment. -/
def performanceBaselineTest : ValidationTest :=
  { name := "Performance Baseline", type := TestType.performance
    endpoint := "/api/v1/benchmark", method := "GET", expectedStatus := 200
    expectedResponse := none, timeout := 15000, retries := 1 }

/-- `generateValidationTests`: two fixed tests, plus a performance
baseline test for the post phase; the version parameters are accepted and
ignored, as in the source. -/
def generateValidationTests (phase fromVersion toVersion : String) : List ValidationTest :=
  let tests := [healthCheckTest, apiCompatibilityTest]
  if phase = "post" then tests ++ [performanceBaselineTest] else tests

/-- `createMigrationPlan`: obtains the compatibility report (propagating
its failure), assembles the plan with the strategy-driven steps, the
fixed rollback template and the validation bundle, then stores the plan.
`Date.now()` is the `now` parameter and the random id suffix is the
`rand` parameter. -/
def createMigrationPlan (s : StoreState) (now : Nat) (rand : String)
    (apiId fromVersion toVersion : String) (strategy : MigrationStrategy) :
    Except VersionError MigrationPlan × StoreState :=
  match compareVersions s apiId fromVersion toVersion with
  | Except.error e => (Except.error e, s)
  | Except.ok compatibilityReport =>
    let migrationPlan : MigrationPlan :=
      { id := "migration-" ++ toString now ++ "-" ++ rand
        fromVersion := fromVersion, toVersion := toVersion, apiId := apiId
        tenantId := ""
        status := PlanStatus.planned
        createdAt := now, startedAt := none, completedAt := none
        strategy := strategy
        steps := generateMigrationSteps strategy compatibilityReport
        rollbackPlan :=
          { enabled := true
            conditions := ["error-rate > 5%", "response-time > 2000ms"]
            steps := ["Stop traffic to new version", "Route all traffic to old version",
              "Investigate issues"] }
        validation :=
          { preDeployment := generateValidationTests "pre" fromVersion toVersion
            postDeployment := generateValidationTests "post" fromVersion toVersion
            contractTests := ["contract-test-suite"] }
        metrics := { successRate := 0, errorRate := 0, performanceImpact := 0 } }
    (Except.ok migrationPlan, { s with migrationPlans := s.migrationPlans ++ [migrationPlan] })

/-- A fixed specification document with the given path map, used by the
concrete test states below. -/
def specOfPaths (paths : List (String × List (String × Operation))) : Specification :=
  { openapi := "3.0.0"
    info := { title := "Test API", description := "test", version := "1.0.0" }
    servers := []
    paths := paths
    components := none }

/-- A fixed deployment descriptor for the concrete test states below. -/
def sampleDeployment : Deployment :=
  { environment := DeployEnv.production
    endpoint := "https://api.example.com"
    containerImage := "api:latest"
    replicas := 2
    resources := { cpu := "500m", memory := "512Mi" }
    healthCheck := { path := "/health", interval := 30, timeout := 5 } }

/-- A version record for the concrete test states below. -/
def mkRecord (apiId version : String) (status : VersionStatus)
    (paths : List (String × List (String × Operation))) : APIVersion :=
  { apiId := apiId, tenantId := "tenant-1", version := version
    status := status, createdAt := 0
    publishedAt := none, deprecatedAt := none, retiredAt := none
    createdBy := "alice", changelog := "initial", breakingChanges := false
    compatibilityLevel := CompatLevel.patch
    specification := specOfPaths paths
    deployment := sampleDeployment
    metrics := { requests := 0, errors := 0, responseTime := 0, uptime := 100, adoption := 0 }
    deprecationPlan := none }

/-- A caller input for `createVersion` for the concrete test states below. -/
def mkInput (apiId version : String) (status : VersionStatus)
    (paths : List (String × List (String × Operation))) : VersionInput :=
  { apiId := apiId, tenantId := "tenant-1", version := version
    status := status
    publishedAt := none, deprecatedAt := none, retiredAt := none
    createdBy := "alice", changelog := "initial", breakingChanges := false
    compatibilityLevel := CompatLevel.patch
    specification := specOfPaths paths
    deployment := sampleDeployment
    deprecationPlan := none }

/-- A lifecycle policy with the given version cap and support period, for
the concrete test states below. -/
def mkPolicy (apiId : String) (maxVersions supportPeriod : Nat) : APILifecyclePolicy :=
  { tenantId := "tenant-1", apiId := apiId
    policy :=
      { maxVersions := maxVersions, supportPeriod := supportPeriod
        deprecationWarning := 30, autoRetirement := false, retirementPeriod := 90
        breakingChangePolicy := BreakingChangePolicy.allowed
        backwardCompatibility := { required := false, testSuite := "suite" } }
    notifications :=
      { deprecation := { enabled := false, recipients := [], template := "t" }
        retirement := { enabled := false, recipients := [], template := "t" } } }

/-- A store state holding only the given version records. -/
def stateOfVersions (vs : List APIVersion) : StoreState :=
  { versions := vs, policies := [], migrationPlans := [], specObjects := [] }

/-- The DynamoDB key of a version record. -/
def vkey (w : APIVersion) : String × String :=
  (w.apiId, w.version)

theorem getVersion_some_key {vs : List APIVersion} {a b : String} {w : APIVersion}
    (h : getVersion vs a b = some w) : w.apiId = a ∧ w.version = b := by
  induction vs with
  | nil => simp [getVersion] at h
  | cons x xs ih =>
    by_cases hx : x.apiId = a ∧ x.version = b
    · simp only [getVersion, if_pos hx] at h
      cases h
      exact hx
    · simp only [getVersion, if_neg hx] at h
      exact ih h

theorem getVersion_mem {vs : List APIVersion} {a b : String} {w : APIVersion}
    (h : getVersion vs a b = some w) : w ∈ vs := by
  induction vs with
  | nil => simp [getVersion] at h
  | cons x xs ih =>
    by_cases hx : x.apiId = a ∧ x.version = b
    · simp only [getVersion, if_pos hx] at h
      cases h
      exact List.mem_cons_self _ _
    · simp only [getVersion, if_neg hx] at h
      exact List.mem_cons_of_mem _ (ih h)

theorem getVersion_eq_none {vs : List APIVersion} {a b : String} :
    getVersion vs a b = none ↔ ∀ w ∈ vs, ¬(w.apiId = a ∧ w.version = b) := by
  induction vs with
  | nil => simp [getVersion]
  | cons x xs ih =>
    constructor
    · intro h w hw
      by_cases hx : x.apiId = a ∧ x.version = b
      · simp only [getVersion, if_pos hx] at h
        exact Option.noConfusion h
      · simp only [getVersion, if_neg hx] at h
        rcases List.mem_cons.mp hw with rfl | hw'
        · exact hx
        · exact ih.mp h w hw'
    · intro h
      have hx : ¬(x.apiId = a ∧ x.version = b) := h x (List.mem_cons_self _ _)
      simp only [getVersion, if_neg hx]
      exact ih.mpr (fun w hw => h w (List.mem_cons_of_mem _ hw))

theorem getVersion_map_keyPres {vs : List APIVersion} {a b : String}
    {f : APIVersion → APIVersion}
    (hf : ∀ w, (f w).apiId = w.apiId ∧ (f w).version = w.version) :
    getVersion (vs.map f) a b = (getVersion vs a b).map f := by
  induction vs with
  | nil => rfl
  | cons x xs ih =>
    obtain ⟨h1, h2⟩ := hf x
    by_cases hx : x.apiId = a ∧ x.version = b
    · have hfx : (f x).apiId = a ∧ (f x).version = b := by rw [h1, h2]; exact hx
      simp only [List.map_cons, getVersion, if_pos hx, if_pos hfx, Option.map_some']
    · have hfx : ¬((f x).apiId = a ∧ (f x).version = b) := by rw [h1, h2]; exact hx
      simp only [List.map_cons, getVersion, if_neg hx, if_neg hfx, ih]

theorem mem_nodupKeys_getVersion {vs : List APIVersion} {w : APIVersion}
    (hmem : w ∈ vs) (hnd : (vs.map vkey).Nodup) :
    getVersion vs w.apiId w.version = some w := by
  induction vs with
  | nil => cases hmem
  | cons x xs ih =>
    rcases List.mem_cons.mp hmem with rfl | hmem'
    · simp [getVersion]
    · have hnd' := hnd
      simp only [List.map_cons, List.nodup_cons] at hnd'
      by_cases hx : x.apiId = w.apiId ∧ x.version = w.version
      · exfalso
        apply hnd'.1
        have : vkey x = vkey w := by
          simp only [vkey, hx.1, hx.2]
        rw [this]
        exact List.mem_map_of_mem vkey hmem'
      · simp only [getVersion, if_neg hx]
        exact ih hmem' hnd'.2

theorem putVersion_of_absent {vs : List APIVersion} {v : APIVersion}
    (h : getVersion vs v.apiId v.version = none) :
    putVersion vs v = vs ++ [v] := by
  simp [putVersion, h]

theorem getVersion_append_right {vs : List APIVersion} {a b : String}
    (h : getVersion vs a b = none) (ws : List APIVersion) :
    getVersion (vs ++ ws) a b = getVersion ws a b := by
  induction vs with
  | nil => rfl
  | cons x xs ih =>
    by_cases hx : x.apiId = a ∧ x.version = b
    · simp only [getVersion, if_pos hx] at h
      cases h
    · simp only [getVersion, if_neg hx] at h
      simp only [List.cons_append, getVersion, if_neg hx]
      exact ih h

theorem getVersion_putVersion_self {vs : List APIVersion} {v : APIVersion} :
    getVersion (putVersion vs v) v.apiId v.version = some v := by
  by_cases h : (getVersion vs v.apiId v.version).isSome
  · rw [Option.isSome_iff_exists] at h
    obtain ⟨w, hw⟩ := h
    have hkey := getVersion_some_key hw
    have hpres : ∀ u : APIVersion,
        ((if u.apiId = v.apiId ∧ u.version = v.version then v else u)).apiId = u.apiId ∧
        ((if u.apiId = v.apiId ∧ u.version = v.version then v else u)).version = u.version := by
      intro u
      by_cases hu : u.apiId = v.apiId ∧ u.version = v.version
      · simp [if_pos hu, hu.1, hu.2]
      · simp [if_neg hu]
    have hmap := @getVersion_map_keyPres vs v.apiId v.version _ hpres
    simp only [putVersion, hw, Option.isSome_some, if_true]
    rw [hmap, hw]
    simp [hkey.1, hkey.2]
  · have h' : getVersion vs v.apiId v.version = none := by
      cases hv : getVersion vs v.apiId v.version with
      | none => rfl
      | some w => rw [hv] at h; simp at h
    rw [putVersion_of_absent h', getVersion_append_right h']
    simp [getVersion]

theorem storeSpecification_versions (s : StoreState) (v : APIVersion) :
    (storeSpecification s v).versions = s.versions := by
  unfold storeSpecification
  dsimp only
  split <;> rfl

theorem storeSpecification_policies (s : StoreState) (v : APIVersion) :
    (storeSpecification s v).policies = s.policies := by
  unfold storeSpecification
  dsimp only
  split <;> rfl

theorem depUpdate_keyPres (now : Nat) (plan : Option DeprecationPlan) (w : APIVersion) :
    (depUpdate now plan w).apiId = w.apiId ∧ (depUpdate now plan w).version = w.version :=
  ⟨rfl, rfl⟩

theorem getVersion_updateVersionRecord {vs : List APIVersion} {a b : String}
    {f : APIVersion → APIVersion}
    (hf : ∀ w, (f w).apiId = w.apiId ∧ (f w).version = w.version) (a' b' : String) :
    getVersion (updateVersionRecord vs a b f) a' b' =
      (getVersion vs a' b').map (fun w => if w.apiId = a ∧ w.version = b then f w else w) := by
  apply getVersion_map_keyPres
  intro w
  by_cases hw : w.apiId = a ∧ w.version = b
  · simp [if_pos hw, hf w]
  · simp [if_neg hw]

theorem createVersion_ok_elim {s : StoreState} {now : Nat} {input : VersionInput}
    {v : APIVersion} {s' : StoreState}
    (h : createVersion s now input = (Except.ok v, s')) :
    (semverValid input.version).isSome ∧
    getVersion s.versions input.apiId input.version = none ∧
    v = builtRecord s now input ∧
    applyLifecyclePolicy
        (storeSpecification { s with versions := putVersion s.versions (builtRecord s now input) }
          (builtRecord s now input)) now (builtRecord s now input) = (Except.ok (), s') := by
  unfold createVersion at h
  cases hv : semverValid input.version with
  | none => rw [hv] at h; exact absurd h (by simp)
  | some sv =>
    rw [hv] at h
    cases hd : getVersion s.versions input.apiId input.version with
    | some w => rw [hd] at h; exact absurd h (by simp)
    | none =>
      rw [hd] at h
      dsimp only at h
      rcases happ : applyLifecyclePolicy
          (storeSpecification { s with versions := putVersion s.versions (builtRecord s now input) }
            (builtRecord s now input)) now (builtRecord s now input) with ⟨res, s3⟩
      rw [happ] at h
      cases res with
      | ok u =>
        simp only [Prod.mk.injEq, Except.ok.injEq] at h
        obtain ⟨hv', hs'⟩ := h
        subst hs'
        subst hv'
        refine ⟨by simp [hv], rfl, rfl, ?_⟩
        rfl
      | error e => exact absurd h (by simp)

theorem createVersion_dup {s : StoreState} {now : Nat} {input : VersionInput}
    (hv : (semverValid input.version).isSome)
    (hd : (getVersion s.versions input.apiId input.version).isSome) :
    createVersion s now input = (Except.error VersionError.duplicateVersion, s) := by
  obtain ⟨sv, hsv⟩ := Option.isSome_iff_exists.mp hv
  obtain ⟨w, hw⟩ := Option.isSome_iff_exists.mp hd
  unfold createVersion
  rw [hsv, hw]

/-- C8: for every input whose version string is not valid semantic-version
syntax, `createVersion` fails with the invalid-version-format error and
returns the stores exactly as given, so the failure happens before any
persistence. -/
theorem C8_invalid_version_rejected (s : StoreState) (now : Nat) (input : VersionInput)
    (h : semverValid input.version = none) :
    createVersion s now input = (Except.error VersionError.invalidVersionFormat, s) := by
  unfold createVersion
  rw [h]

/-- Witness for C8 at the concrete version string "v1" on the empty store. -/
theorem C8_invalid_version_rejected_witness :
    semverValid (mkInput "api" "v1" VersionStatus.draft []).version = none ∧
    createVersion (stateOfVersions []) 0 (mkInput "api" "v1" VersionStatus.draft []) =
      (Except.error VersionError.invalidVersionFormat, stateOfVersions []) :=
  ⟨rfl, C8_invalid_version_rejected (stateOfVersions []) 0
    (mkInput "api" "v1" VersionStatus.draft []) rfl⟩

/-- C9 (amended): every record a successful `createVersion` returns
carries the caller-supplied status and the initial metrics snapshot,
whose fields are all zero except `uptime`, which is 100. -/
theorem C9_status_and_metrics (s : StoreState) (now : Nat) (input : VersionInput)
    (v : APIVersion) (s' : StoreState)
    (h : createVersion s now input = (Except.ok v, s')) :
    v.status = input.status ∧
    v.metrics.requests = 0 ∧ v.metrics.errors = 0 ∧ v.metrics.responseTime = 0 ∧
    v.metrics.adoption = 0 ∧ v.metrics.uptime = 100 := by
  obtain ⟨-, -, hb, -⟩ := createVersion_ok_elim h
  subst hb
  exact ⟨rfl, rfl, rfl, rfl, rfl, rfl⟩

/-- Witness for C9 (amended) at a concrete creation on the empty store. -/
theorem C9_status_and_metrics_witness :
    (createVersion (stateOfVersions []) 7 (mkInput "api" "1.0.0" VersionStatus.draft [])).1 =
      Except.ok (builtRecord (stateOfVersions []) 7 (mkInput "api" "1.0.0" VersionStatus.draft [])) ∧
    (builtRecord (stateOfVersions []) 7 (mkInput "api" "1.0.0" VersionStatus.draft [])).status =
      VersionStatus.draft ∧
    (builtRecord (stateOfVersions []) 7 (mkInput "api" "1.0.0" VersionStatus.draft [])).metrics.uptime
      = 100 := by
  refine ⟨rfl, ?_, ?_⟩
  · exact (C9_status_and_metrics (stateOfVersions []) 7
      (mkInput "api" "1.0.0" VersionStatus.draft []) _ _ rfl).1
  · exact (C9_status_and_metrics (stateOfVersions []) 7
      (mkInput "api" "1.0.0" VersionStatus.draft []) _ _ rfl).2.2.2.2.2

/-- C9 (counterexample to the claim as stated): a concrete successful
`createVersion` persists a metrics snapshot whose uptime field is 100,
not 0, so not every field of the snapshot is zero. -/
theorem C9_counterexample :
    Except.map (fun v => (v.metrics.requests, v.metrics.errors, v.metrics.responseTime,
        v.metrics.uptime, v.metrics.adoption))
      (createVersion (stateOfVersions []) 7 (mkInput "api" "1.0.0" VersionStatus.draft [])).1 =
      Except.ok (0, 0, 0, 100, 0) ∧
    ((0, 0, 0, 100, 0) : Nat × Nat × Nat × Nat × Nat) ≠ (0, 0, 0, 0, 0) :=
  ⟨rfl, by decide⟩

/-- C10: every report `compareVersions` returns has an empty warnings
list; no analyzer path produces a warning. -/
theorem C10_warnings_empty (s : StoreState) (apiId v1 v2 : String)
    (report : CompatibilityReport)
    (h : compareVersions s apiId v1 v2 = Except.ok report) :
    report.warnings = [] := by
  unfold compareVersions at h
  cases h1 : getVersion s.versions apiId v1 with
  | none => rw [h1] at h; exact absurd h (by simp)
  | some r1 =>
    cases h2 : getVersion s.versions apiId v2 with
    | none => rw [h1, h2] at h; exact absurd h (by simp)
    | some r2 =>
      rw [h1, h2] at h
      simp only [Except.ok.injEq] at h
      subst h
      rfl

/-- The concrete store used by the C10 witness. -/
def c10State : StoreState :=
  stateOfVersions [mkRecord "api" "1.0.0" VersionStatus.published [],
    mkRecord "api" "1.1.0" VersionStatus.published []]

/-- The report `compareVersions` produces on the C10 witness store. -/
def c10Report : CompatibilityReport :=
  { version1 := "1.0.0", version2 := "1.1.0", compatible := true
    breakingChanges := [], warnings := [], score := 100 }

/-- Witness for C10 on a concrete two-version store. -/
theorem C10_warnings_empty_witness :
    compareVersions c10State "api" "1.0.0" "1.1.0" = Except.ok c10Report ∧
    c10Report.warnings = [] :=
  ⟨rfl, C10_warnings_empty c10State "api" "1.0.0" "1.1.0" c10Report rfl⟩

theorem getVersion_isSome_deprecateVersion (s : StoreState) (now : Nat)
    (a b : String) (plan : Option DeprecationPlan) (a' b' : String) :
    (getVersion (deprecateVersion s now a b plan).2.versions a' b').isSome =
      (getVersion s.versions a' b').isSome := by
  unfold deprecateVersion
  cases h : getVersion s.versions a b with
  | none => rfl
  | some rec =>
    dsimp only
    by_cases hs : rec.status ≠ VersionStatus.published
    · rw [if_pos hs]
    · rw [if_neg hs]
      dsimp only
      rw [getVersion_updateVersionRecord (fun w => depUpdate_keyPres now plan w)]
      simp

theorem getVersion_isSome_deprecateEach (now : Nat) (plan : DeprecationPlan)
    (a' b' : String) :
    ∀ (todo : List APIVersion) (st : StoreState),
      (getVersion (deprecateEach now plan todo st).2.versions a' b').isSome =
        (getVersion st.versions a' b').isSome := by
  intro todo
  induction todo with
  | nil => intro st; rfl
  | cons v rest ih =>
    intro st
    have hdep := getVersion_isSome_deprecateVersion st now v.apiId v.version (some plan) a' b'
    rcases hcall : deprecateVersion st now v.apiId v.version (some plan) with ⟨res, st1⟩
    rw [hcall] at hdep
    cases res with
    | ok u =>
      simp only [deprecateEach, hcall]
      rw [ih st1]
      exact hdep
    | error e =>
      simp only [deprecateEach, hcall]
      exact hdep

theorem getVersion_isSome_applyLifecycle (st : StoreState) (now : Nat)
    (ver : APIVersion) (a' b' : String) :
    (getVersion (applyLifecyclePolicy st now ver).2.versions a' b').isSome =
      (getVersion st.versions a' b').isSome := by
  unfold applyLifecyclePolicy
  cases hp : getLifecyclePolicy st.policies ver.apiId with
  | none => rfl
  | some policy =>
    dsimp only
    split
    · exact getVersion_isSome_deprecateEach now _ a' b' _ st
    · rfl

/-- C7: once a `createVersion` call has succeeded for an (apiId, version)
pair, any later `createVersion` call for the same pair fails with the
duplicate-version error and returns the stores unchanged, whatever the
rest of its input. -/
theorem C7_duplicate_rejected (s : StoreState) (now : Nat) (input : VersionInput)
    (v : APIVersion) (s₁ : StoreState) (now' : Nat) (input' : VersionInput)
    (h1 : createVersion s now input = (Except.ok v, s₁))
    (hapi : input'.apiId = input.apiId) (hver : input'.version = input.version) :
    createVersion s₁ now' input' = (Except.error VersionError.duplicateVersion, s₁) := by
  obtain ⟨hvalid, hnone, hb, happ⟩ := createVersion_ok_elim h1
  apply createVersion_dup
  · rw [hver]; exact hvalid
  · rw [hapi, hver]
    have hs1 : s₁ = (applyLifecyclePolicy
        (storeSpecification { s with versions := putVersion s.versions (builtRecord s now input) }
          (builtRecord s now input)) now (builtRecord s now input)).2 := by
      rw [happ]
    rw [hs1, getVersion_isSome_applyLifecycle, storeSpecification_versions]
    have hput : getVersion
        (putVersion s.versions (builtRecord s now input)) input.apiId input.version =
        some (builtRecord s now input) :=
      getVersion_putVersion_self
    rw [hput]
    rfl

/-- Witness for C7: a concrete create succeeds, the identical second call
fails with the duplicate error. -/
theorem C7_duplicate_rejected_witness :
    (createVersion (stateOfVersions []) 3 (mkInput "api" "1.0.0" VersionStatus.draft [])).1 =
      Except.ok (builtRecord (stateOfVersions []) 3 (mkInput "api" "1.0.0" VersionStatus.draft [])) ∧
    createVersion (createVersion (stateOfVersions []) 3
        (mkInput "api" "1.0.0" VersionStatus.draft [])).2 9
        (mkInput "api" "1.0.0" VersionStatus.published []) =
      (Except.error VersionError.duplicateVersion,
        (createVersion (stateOfVersions []) 3 (mkInput "api" "1.0.0" VersionStatus.draft [])).2) := by
  refine ⟨rfl, ?_⟩
  exact C7_duplicate_rejected (stateOfVersions []) 3 (mkInput "api" "1.0.0" VersionStatus.draft [])
    _ _ 9 (mkInput "api" "1.0.0" VersionStatus.published []) rfl rfl rfl

/-- C2: version status only moves forward: `deprecateVersion` fails with
the invalid-transition error unless the current status is exactly
published (and then leaves the store untouched), and on success sets the
status to deprecated and records `deprecatedAt`; `retireVersion` fails
with the invalid-transition error unless the current status is exactly
deprecated (leaving the store untouched), and on success sets the status
to retired and records `retiredAt`. -/
theorem C2_monotonic_transitions (s : StoreState) (now : Nat) (apiId version : String)
    (plan : Option DeprecationPlan) (rec : APIVersion)
    (hfind : getVersion s.versions apiId version = some rec) :
    (rec.status ≠ VersionStatus.published →
      deprecateVersion s now apiId version plan =
        (Except.error VersionError.invalidTransition, s)) ∧
    (rec.status = VersionStatus.published →
      (deprecateVersion s now apiId version plan).1 = Except.ok () ∧
      getVersion (deprecateVersion s now apiId version plan).2.versions apiId version =
        some { rec with status := VersionStatus.deprecated, deprecatedAt := some now
                        deprecationPlan := plan }) ∧
    (rec.status ≠ VersionStatus.deprecated →
      retireVersion s now apiId version = (Except.error VersionError.invalidTransition, s)) ∧
    (rec.status = VersionStatus.deprecated →
      (retireVersion s now apiId version).1 = Except.ok () ∧
      getVersion (retireVersion s now apiId version).2.versions apiId version =
        some { rec with status := VersionStatus.retired, retiredAt := some now }) := by
  have hkey := getVersion_some_key hfind
  refine ⟨?_, ?_, ?_, ?_⟩
  · intro hne
    unfold deprecateVersion
    rw [hfind]
    dsimp only
    rw [if_pos hne]
  · intro heq
    have hne : ¬ rec.status ≠ VersionStatus.published := by simp [heq]
    constructor
    · unfold deprecateVersion
      rw [hfind]
      dsimp only
      rw [if_neg hne]
    · unfold deprecateVersion
      rw [hfind]
      dsimp only
      rw [if_neg hne]
      dsimp only
      rw [getVersion_updateVersionRecord (fun w => depUpdate_keyPres now plan w), hfind]
      simp only [Option.map_some']
      rw [if_pos hkey]
      rfl
  · intro hne
    unfold retireVersion
    rw [hfind]
    dsimp only
    rw [if_pos hne]
  · intro heq
    have hne : ¬ rec.status ≠ VersionStatus.deprecated := by simp [heq]
    constructor
    · unfold retireVersion
      rw [hfind]
      dsimp only
      rw [if_neg hne]
    · unfold retireVersion
      rw [hfind]
      dsimp only
      rw [if_neg hne]
      dsimp only
      rw [getVersion_updateVersionRecord
        (f := fun w => { w with status := VersionStatus.retired, retiredAt := some now })
        (fun w => ⟨rfl, rfl⟩), hfind]
      simp only [Option.map_some']
      rw [if_pos hkey]

/-- Witness for C2: on a store with one published record, deprecation
succeeds and produces the deprecated record with `deprecatedAt` set,
while direct retirement of the same published record fails with the
invalid-transition error. -/
theorem C2_monotonic_transitions_witness :
    (deprecateVersion (stateOfVersions [mkRecord "api" "1.0.0" VersionStatus.published []]) 11
        "api" "1.0.0" none).1 = Except.ok () ∧
    getVersion (deprecateVersion (stateOfVersions [mkRecord "api" "1.0.0" VersionStatus.published []])
        11 "api" "1.0.0" none).2.versions "api" "1.0.0" =
      some { mkRecord "api" "1.0.0" VersionStatus.published [] with
              status := VersionStatus.deprecated, deprecatedAt := some 11
              deprecationPlan := none } ∧
    retireVersion (stateOfVersions [mkRecord "api" "1.0.0" VersionStatus.published []]) 11
        "api" "1.0.0" =
      (Except.error VersionError.invalidTransition,
        stateOfVersions [mkRecord "api" "1.0.0" VersionStatus.published []]) := by
  have h := C2_monotonic_transitions
    (stateOfVersions [mkRecord "api" "1.0.0" VersionStatus.published []]) 11 "api" "1.0.0" none
    (mkRecord "api" "1.0.0" VersionStatus.published []) rfl
  exact ⟨(h.2.1 rfl).1, (h.2.1 rfl).2, h.2.2.1 (by decide)⟩

/-- C6: every migration plan produced by `createMigrationPlan` with the
canary strategy consists exactly of prepare, deploy 10 percent, increase
to 50 percent, full deployment and cleanup, in that order, each step
depending precisely on the immediately preceding step; for every
strategy the plan opens with the Pre-deployment Validation preparation
step and closes with the Cleanup Old Resources step whose single
dependency is the identifier of the immediately preceding step. -/
theorem C6_migration_steps (s : StoreState) (now : Nat) (rand : String)
    (apiId fromVersion toVersion : String) (strategy : MigrationStrategy)
    (plan : MigrationPlan) (s' : StoreState)
    (h : createMigrationPlan s now rand apiId fromVersion toVersion strategy =
      (Except.ok plan, s')) :
    (strategy = MigrationStrategy.canary →
      plan.steps.map (fun st => (st.id, st.name, st.type, st.dependencies)) =
        [("prep-1", "Pre-deployment Validation", StepType.preparation, ([] : List String)),
         ("deploy-1", "Deploy Canary (10%)", StepType.deployment, ["prep-1"]),
         ("deploy-2", "Increase to 50%", StepType.deployment, ["deploy-1"]),
         ("deploy-3", "Full Deployment", StepType.deployment, ["deploy-2"]),
         ("cleanup-1", "Cleanup Old Resources", StepType.cleanup, ["deploy-3"])]) ∧
    plan.steps.head?.map (fun st => (st.name, st.type, st.dependencies)) =
      some ("Pre-deployment Validation", StepType.preparation, ([] : List String)) ∧
    plan.steps.getLast?.map (fun st => (st.name, st.type)) =
      some ("Cleanup Old Resources", StepType.cleanup) ∧
    plan.steps.getLast?.map (fun st => st.dependencies) =
      plan.steps.dropLast.getLast?.map (fun st => [st.id]) := by
  unfold createMigrationPlan at h
  cases hc : compareVersions s apiId fromVersion toVersion with
  | error e => rw [hc] at h; exact absurd h (by simp)
  | ok report =>
    rw [hc] at h
    dsimp only at h
    simp only [Prod.mk.injEq, Except.ok.injEq] at h
    obtain ⟨hplan, -⟩ := h
    subst hplan
    cases strategy with
    | blueGreen => exact ⟨(fun hh => nomatch hh), rfl, rfl, rfl⟩
    | canary => exact ⟨fun _ => rfl, rfl, rfl, rfl⟩
    | rolling => exact ⟨(fun hh => nomatch hh), rfl, rfl, rfl⟩
    | immediate => exact ⟨(fun hh => nomatch hh), rfl, rfl, rfl⟩

/-- The concrete store used by the C6 witness. -/
def c6State : StoreState :=
  stateOfVersions [mkRecord "api" "1.0.0" VersionStatus.published [],
    mkRecord "api" "2.0.0" VersionStatus.draft []]

/-- Witness for C6: a canary migration plan on a concrete store has
exactly the five canary steps chained by their dependencies. -/
theorem C6_migration_steps_witness :
    Except.map (fun p => p.steps.map (fun st => (st.id, st.name, st.type, st.dependencies)))
      (createMigrationPlan c6State 1 "r" "api" "1.0.0" "2.0.0" MigrationStrategy.canary).1 =
      Except.ok
        [("prep-1", "Pre-deployment Validation", StepType.preparation, ([] : List String)),
         ("deploy-1", "Deploy Canary (10%)", StepType.deployment, ["prep-1"]),
         ("deploy-2", "Increase to 50%", StepType.deployment, ["deploy-1"]),
         ("deploy-3", "Full Deployment", StepType.deployment, ["deploy-2"]),
         ("cleanup-1", "Cleanup Old Resources", StepType.cleanup, ["deploy-3"])] := by
  rcases hp : createMigrationPlan c6State 1 "r" "api" "1.0.0" "2.0.0" MigrationStrategy.canary
    with ⟨res, s2⟩
  cases res with
  | error e =>
    have hok : (createMigrationPlan c6State 1 "r" "api" "1.0.0" "2.0.0"
        MigrationStrategy.canary).1.isOk = true := rfl
    rw [hp] at hok
    exact absurd hok (by simp [Except.isOk, Except.toBool])
  | ok p =>
    have hsteps := (C6_migration_steps c6State 1 "r" "api" "1.0.0" "2.0.0"
      MigrationStrategy.canary p s2 hp).1 rfl
    dsimp only
    simp only [Except.map]
    rw [hsteps]

theorem analyzeBreakingChanges_self (spec : Specification) :
    analyzeBreakingChanges spec spec = [] := by
  unfold analyzeBreakingChanges
  rw [List.append_eq_nil]
  constructor
  · unfold removedPart
    rw [List.filterMap_eq_nil_iff]
    intro path hp
    rw [if_pos hp]
  · unfold changedPart
    rw [List.flatMap_eq_nil_iff]
    intro path hp
    rw [if_pos hp]
    dsimp only
    rw [List.filterMap_eq_nil_iff]
    intro method hm
    by_cases hmm : method ∈ methodKeys (pathItem spec path)
    · rw [if_pos hmm]
      cases ho : (getOperation (pathItem spec path) method).bind Operation.responses with
      | none => rfl
      | some r => simp
    · rw [if_neg hmm]

/-- C4: for every report `compareVersions` returns, the score is 100 minus
the summed per-severity deductions of the breaking-change findings,
floored at zero; `compatible` is true exactly when the breaking-change
list is empty; and when the two records carry identical specifications
the report is compatible with no findings and score 100. -/
theorem C4_score_and_compatible (s : StoreState) (apiId v1 v2 : String)
    (rec1 rec2 : APIVersion) (report : CompatibilityReport)
    (h1 : getVersion s.versions apiId v1 = some rec1)
    (h2 : getVersion s.versions apiId v2 = some rec2)
    (h : compareVersions s apiId v1 v2 = Except.ok report) :
    report.score = max 0 (100 - totalDeduction report.breakingChanges) ∧
    (report.compatible = true ↔ report.breakingChanges = []) ∧
    (rec1.specification = rec2.specification →
      report.compatible = true ∧ report.breakingChanges = [] ∧ report.score = 100) := by
  unfold compareVersions at h
  rw [h1, h2] at h
  dsimp only at h
  simp only [Except.ok.injEq] at h
  subst h
  refine ⟨rfl, ?_, ?_⟩
  · exact List.isEmpty_iff
  · intro hspec
    have hself : analyzeBreakingChanges rec1.specification rec2.specification = [] := by
      rw [hspec]
      exact analyzeBreakingChanges_self _
    refine ⟨?_, hself, ?_⟩
    · simp [hself]
    · show max 0 (100 - totalDeduction
        (analyzeBreakingChanges rec1.specification rec2.specification)) = 100
      rw [hself]
      rfl

/-- The identical specification used by both records of the C4 witness. -/
def c4Paths : List (String × List (String × Operation)) :=
  [("/users", [("get", { responses := some { content200 := some "u" } })])]

/-- The concrete store used by the C4 witness. -/
def c4State : StoreState :=
  stateOfVersions [mkRecord "api" "1.0.0" VersionStatus.published c4Paths,
    mkRecord "api" "1.0.1" VersionStatus.published c4Paths]

/-- Witness for C4 on two records with identical specifications. -/
theorem C4_score_and_compatible_witness :
    compareVersions c4State "api" "1.0.0" "1.0.1" =
      Except.ok { version1 := "1.0.0", version2 := "1.0.1", compatible := true
                  breakingChanges := [], warnings := [], score := 100 } ∧
    (100 : Int) = max 0 (100 - totalDeduction []) := by
  refine ⟨?_, rfl⟩
  rcases hp : compareVersions c4State "api" "1.0.0" "1.0.1" with hres | report
  · have hok : (compareVersions c4State "api" "1.0.0" "1.0.1").isOk = true := rfl
    rw [hp] at hok
    exact absurd hok (by simp [Except.isOk, Except.toBool])
  · have h := C4_score_and_compatible c4State "api" "1.0.0" "1.0.1"
      (mkRecord "api" "1.0.0" VersionStatus.published c4Paths)
      (mkRecord "api" "1.0.1" VersionStatus.published c4Paths) report rfl rfl hp
    obtain ⟨hc, hb, hsc⟩ := h.2.2 rfl
    have hv1 : report.version1 = "1.0.0" := by
      have : (compareVersions c4State "api" "1.0.0" "1.0.1").map (fun r => r.version1) =
          Except.ok "1.0.0" := rfl
      rw [hp] at this
      simpa [Except.map] using this
    have hv2 : report.version2 = "1.0.1" := by
      have : (compareVersions c4State "api" "1.0.0" "1.0.1").map (fun r => r.version2) =
          Except.ok "1.0.1" := rfl
      rw [hp] at this
      simpa [Except.map] using this
    have hw : report.warnings = [] := by
      have : (compareVersions c4State "api" "1.0.0" "1.0.1").map (fun r => r.warnings) =
          Except.ok ([] : List CompatWarning) := rfl
      rw [hp] at this
      simpa [Except.map] using this
    have : report = { version1 := "1.0.0", version2 := "1.0.1", compatible := true
                      breakingChanges := [], warnings := [], score := 100 } := by
      cases report
      simp only at hc hb hsc hv1 hv2 hw
      simp [hc, hb, hsc, hv1, hv2, hw]
    rw [this]

theorem mem_removedPart {spec1 spec2 : Specification} {c : BreakingChange}
    (h : c ∈ removedPart spec1 spec2) :
    ∃ p, p ∈ pathKeys spec1 ∧ p ∉ pathKeys spec2 ∧ c = removedEndpointChange p := by
  unfold removedPart at h
  rw [List.mem_filterMap] at h
  obtain ⟨p, hp, hc⟩ := h
  by_cases hmem : p ∈ pathKeys spec2
  · rw [if_pos hmem] at hc
    exact Option.noConfusion hc
  · rw [if_neg hmem] at hc
    exact ⟨p, hp, hmem, (Option.some.injEq _ _ ▸ hc).symm⟩

theorem mem_changedPart_type {spec1 spec2 : Specification} {c : BreakingChange}
    (h : c ∈ changedPart spec1 spec2) :
    c.type = BreakingChangeType.changedResponseFormat := by
  unfold changedPart at h
  rw [List.mem_flatMap] at h
  obtain ⟨p, hp, hc⟩ := h
  by_cases hmem : p ∈ pathKeys spec1
  · rw [if_pos hmem] at hc
    dsimp only at hc
    rw [List.mem_filterMap] at hc
    obtain ⟨m, hm, hcm⟩ := hc
    by_cases hmm : m ∈ methodKeys (pathItem spec1 p)
    · rw [if_pos hmm] at hcm
      cases h1 : (getOperation (pathItem spec1 p) m).bind Operation.responses with
      | none => rw [h1] at hcm; exact Option.noConfusion hcm
      | some r1 =>
        cases h2 : (getOperation (pathItem spec2 p) m).bind Operation.responses with
        | none => rw [h1, h2] at hcm; exact Option.noConfusion hcm
        | some r2 =>
          rw [h1, h2] at hcm
          dsimp only at hcm
          by_cases heq : r1.content200 = r2.content200
          · rw [if_pos heq] at hcm
            exact Option.noConfusion hcm
          · rw [if_neg heq] at hcm
            have := (Option.some.injEq _ _ ▸ hcm)
            rw [← this]
            rfl
    · rw [if_neg hmm] at hcm
      exact Option.noConfusion hcm
  · rw [if_neg hmem] at hc
    exact absurd hc (List.not_mem_nil c)

theorem countP_removedPart_of_missing {spec1 spec2 : Specification} {p : String}
    (hnd : (pathKeys spec1).Nodup) (hp : p ∈ pathKeys spec1) (hnp : p ∉ pathKeys spec2) :
    (removedPart spec1 spec2).countP
      (fun c => decide (c.type = BreakingChangeType.removedEndpoint ∧ c.path = p)) = 1 := by
  unfold removedPart
  revert hnd hp
  generalize pathKeys spec1 = l
  intro hnd hp
  induction l with
  | nil => cases hp
  | cons q l ih =>
    rw [List.nodup_cons] at hnd
    rcases List.mem_cons.mp hp with rfl | hp'
    · rw [List.filterMap_cons, if_neg hnp]
      dsimp only
      rw [List.countP_cons]
      have h1 : decide ((removedEndpointChange p).type = BreakingChangeType.removedEndpoint ∧
          (removedEndpointChange p).path = p) = true := by
        simp [removedEndpointChange]
      rw [if_pos h1]
      have h0 : List.countP
          (fun c => decide (c.type = BreakingChangeType.removedEndpoint ∧ c.path = p))
          (List.filterMap
            (fun path => if path ∈ pathKeys spec2 then none else some (removedEndpointChange path))
            l) = 0 := by
        rw [List.countP_eq_zero]
        intro c hc
        rw [List.mem_filterMap] at hc
        obtain ⟨r, hr, hcr⟩ := hc
        by_cases hrm : r ∈ pathKeys spec2
        · rw [if_pos hrm] at hcr
          exact Option.noConfusion hcr
        · rw [if_neg hrm] at hcr
          have hcr' := (Option.some.injEq _ _ ▸ hcr)
          rw [← hcr']
          simp only [removedEndpointChange, decide_eq_true_eq]
          rintro ⟨-, rfl⟩
          exact hnd.1 hr
      rw [h0]
    · have hqp : ¬(q = p) := by
        rintro rfl
        exact hnd.1 hp'
      by_cases hq2 : q ∈ pathKeys spec2
      · rw [List.filterMap_cons, if_pos hq2]
        exact ih hnd.2 hp'
      · rw [List.filterMap_cons, if_neg hq2]
        dsimp only
        rw [List.countP_cons]
        have h1 : decide ((removedEndpointChange q).type = BreakingChangeType.removedEndpoint ∧
            (removedEndpointChange q).path = p) = false := by
          simp [removedEndpointChange, hqp]
        rw [if_neg (by rw [h1]; exact Bool.false_ne_true)]
        rw [ih hnd.2 hp']

/-- C5: in every report of `compareVersions`, each path of the first
record's specification missing from the second yields exactly one finding,
of type removed-endpoint and severity critical, with that path; and when
the whole finding list is a single removed-endpoint finding the score is
75. -/
theorem C5_removed_endpoint (s : StoreState) (apiId vA vB : String)
    (rA rB : APIVersion) (report : CompatibilityReport)
    (hA : getVersion s.versions apiId vA = some rA)
    (hB : getVersion s.versions apiId vB = some rB)
    (h : compareVersions s apiId vA vB = Except.ok report)
    (hnd : (pathKeys rA.specification).Nodup) :
    (∀ p, p ∈ pathKeys rA.specification → p ∉ pathKeys rB.specification →
      report.breakingChanges.countP
        (fun c => decide (c.type = BreakingChangeType.removedEndpoint ∧ c.path = p)) = 1 ∧
      removedEndpointChange p ∈ report.breakingChanges ∧
      (removedEndpointChange p).type = BreakingChangeType.removedEndpoint ∧
      (removedEndpointChange p).severity = Severity.critical ∧
      (removedEndpointChange p).path = p) ∧
    (∀ c, report.breakingChanges = [c] → c.type = BreakingChangeType.removedEndpoint →
      report.score = 75) := by
  unfold compareVersions at h
  rw [hA, hB] at h
  dsimp only at h
  simp only [Except.ok.injEq] at h
  subst h
  constructor
  · intro p hp hnp
    refine ⟨?_, ?_, rfl, rfl, rfl⟩
    · show (analyzeBreakingChanges rA.specification rB.specification).countP
        (fun c => decide (c.type = BreakingChangeType.removedEndpoint ∧ c.path = p)) = 1
      unfold analyzeBreakingChanges
      rw [List.countP_append, countP_removedPart_of_missing hnd hp hnp]
      have hz : (changedPart rA.specification rB.specification).countP
          (fun c => decide (c.type = BreakingChangeType.removedEndpoint ∧ c.path = p)) = 0 := by
        rw [List.countP_eq_zero]
        intro c hc
        have ht := mem_changedPart_type hc
        simp [ht]
      rw [hz]
    · show removedEndpointChange p ∈ analyzeBreakingChanges rA.specification rB.specification
      unfold analyzeBreakingChanges
      apply List.mem_append_left
      unfold removedPart
      rw [List.mem_filterMap]
      exact ⟨p, hp, by rw [if_neg hnp]⟩
  · intro c hc htype
    dsimp only at hc
    have hmem : c ∈ analyzeBreakingChanges rA.specification rB.specification := by
      rw [hc]
      exact List.mem_cons_self _ _
    have hsev : c.severity = Severity.critical := by
      rcases List.mem_append.mp hmem with hr | hch
      · obtain ⟨q, -, -, rfl⟩ := mem_removedPart hr
        rfl
      · have ht := mem_changedPart_type hch
        rw [htype] at ht
        exact nomatch ht
    show max 0 (100 - totalDeduction (analyzeBreakingChanges rA.specification rB.specification)) = 75
    rw [hc]
    unfold totalDeduction
    simp [hsev, severityDeduction]

/-- The concrete store used by the C5 witness: version 1.0.0 exposes the
path /old, version 2.0.0 does not. -/
def c5State : StoreState :=
  stateOfVersions [mkRecord "api" "1.0.0" VersionStatus.published [("/old", [])],
    mkRecord "api" "2.0.0" VersionStatus.published []]

/-- Witness for C5: removing the single path /old yields exactly the one
critical removed-endpoint finding and a score of 75. -/
theorem C5_removed_endpoint_witness :
    (compareVersions c5State "api" "1.0.0" "2.0.0").map (fun r => r.breakingChanges) =
      Except.ok [removedEndpointChange "/old"] ∧
    (removedEndpointChange "/old").severity = Severity.critical ∧
    (compareVersions c5State "api" "1.0.0" "2.0.0").map (fun r => r.score) = Except.ok 75 := by
  refine ⟨rfl, rfl, ?_⟩
  rcases hp : compareVersions c5State "api" "1.0.0" "2.0.0" with hres | report
  · have hok : (compareVersions c5State "api" "1.0.0" "2.0.0").isOk = true := rfl
    rw [hp] at hok
    exact absurd hok (by simp [Except.isOk, Except.toBool])
  · have hb : report.breakingChanges = [removedEndpointChange "/old"] := by
      have hh : (compareVersions c5State "api" "1.0.0" "2.0.0").map (fun r => r.breakingChanges) =
          Except.ok [removedEndpointChange "/old"] := rfl
      rw [hp] at hh
      simpa [Except.map] using hh
    have hsc := (C5_removed_endpoint c5State "api" "1.0.0" "2.0.0"
      (mkRecord "api" "1.0.0" VersionStatus.published [("/old", [])])
      (mkRecord "api" "2.0.0" VersionStatus.published []) report rfl rfl hp
      (by decide)).2 (removedEndpointChange "/old") hb rfl
    simp only [Except.map]
    rw [hsc]

theorem compatLevelFor_eq (vs : List APIVersion) (a str : String) :
    compatLevelFor vs a str =
      match getLatestVersion vs a with
      | none => CompatLevel.patch
      | some latest =>
        if (semverKey latest.version).major ≠ (semverKey str).major then CompatLevel.major
        else if (semverKey latest.version).minor ≠ (semverKey str).minor then CompatLevel.minor
        else CompatLevel.patch := by
  unfold compatLevelFor
  cases getLatestVersion vs a with
  | none => rfl
  | some latest =>
    dsimp only
    by_cases h1 : (semverKey latest.version).major = (semverKey str).major
    · rw [if_neg (by simpa using h1)]
      by_cases h2 : (semverKey latest.version).minor = (semverKey str).minor
      · rw [if_neg (by simpa using h2)]
        by_cases h0 : semverKey latest.version = semverKey str
        · rw [semverDiff, if_pos h0]
        · rw [semverDiff, if_neg h0, if_neg (by simpa using h1), if_neg (by simpa using h2)]
      · have h0 : ¬ semverKey latest.version = semverKey str := by
          intro he
          exact h2 (by rw [he])
        rw [if_pos (by simpa using h2)]
        rw [semverDiff, if_neg h0, if_neg (by simpa using h1), if_pos (by simpa using h2)]
    · have h0 : ¬ semverKey latest.version = semverKey str := by
        intro he
        exact h1 (by rw [he])
      rw [if_pos (by simpa using h1)]
      rw [semverDiff, if_neg h0, if_pos (by simpa using h1)]

/-- C1 (amended): the compatibility level of every record a successful
`createVersion` returns is the semantic-version diff classification of
the new version string against the latest stored version of the api, of
any status, with patch when no prior version exists (and when the diff is
neither major nor minor). -/
theorem C1_compat_level (s : StoreState) (now : Nat) (input : VersionInput)
    (v : APIVersion) (s' : StoreState)
    (h : createVersion s now input = (Except.ok v, s')) :
    v.compatibilityLevel =
      match getLatestVersion s.versions input.apiId with
      | none => CompatLevel.patch
      | some latest =>
        if (semverKey latest.version).major ≠ (semverKey input.version).major then
          CompatLevel.major
        else if (semverKey latest.version).minor ≠ (semverKey input.version).minor then
          CompatLevel.minor
        else CompatLevel.patch := by
  obtain ⟨-, -, hb, -⟩ := createVersion_ok_elim h
  subst hb
  exact compatLevelFor_eq s.versions input.apiId input.version

/-- The concrete store used by the C1 witness: one stored version 1.0.0. -/
def c1bState : StoreState :=
  stateOfVersions [mkRecord "api" "1.0.0" VersionStatus.published []]

/-- Witness for C1 (amended): creating 1.1.0 after 1.0.0 yields the minor
classification. -/
theorem C1_compat_level_witness :
    (createVersion c1bState 5 (mkInput "api" "1.1.0" VersionStatus.draft [])).1 =
      Except.ok (builtRecord c1bState 5 (mkInput "api" "1.1.0" VersionStatus.draft [])) ∧
    (builtRecord c1bState 5 (mkInput "api" "1.1.0" VersionStatus.draft [])).compatibilityLevel =
      CompatLevel.minor := by
  refine ⟨rfl, ?_⟩
  exact C1_compat_level c1bState 5 (mkInput "api" "1.1.0" VersionStatus.draft [])
    (builtRecord c1bState 5 (mkInput "api" "1.1.0" VersionStatus.draft []))
    (createVersion c1bState 5 (mkInput "api" "1.1.0" VersionStatus.draft [])).2 rfl

/-- Follows the claim wording of C1: the latest version of the api among
the records in status published only, as the precedence-maximal published
record.  Compare with `getLatestVersion`, which the code applies to all
records of the api regardless of status. -/
def latestPublishedVersion (vs : List APIVersion) (apiId : String) : Option APIVersion :=
  (activePublished vs apiId).foldl
    (fun acc v =>
      match acc with
      | none => some v
      | some b => if semverLt (semverKey b.version) (semverKey v.version) then some v else some b)
    none

/-- Follows the claim wording of C1: the diff classification computed
against the latest published version. -/
def claimedCompatibilityLevel (vs : List APIVersion) (apiId versionStr : String) : CompatLevel :=
  match latestPublishedVersion vs apiId with
  | none => CompatLevel.patch
  | some latestVersion =>
    match semverDiff (semverKey latestVersion.version) (semverKey versionStr) with
    | some CompatLevel.major => CompatLevel.major
    | some CompatLevel.minor => CompatLevel.minor
    | _ => CompatLevel.patch

/-- The concrete store refuting C1 as stated: version 1.0.0 is published
and version 2.0.0 is a draft. -/
def c1State : StoreState :=
  stateOfVersions [mkRecord "api" "1.0.0" VersionStatus.published [],
    mkRecord "api" "2.0.0" VersionStatus.draft []]

/-- Counterexample to C1 as stated: creating 2.0.1 on a store whose
latest published version is 1.0.0 but whose latest stored version is the
draft 2.0.0 persists compatibility level patch (diff against the draft
2.0.0), while classification against the latest published version 1.0.0
would give major. -/
theorem C1_counterexample :
    Except.map (fun v => v.compatibilityLevel)
      (createVersion c1State 5 (mkInput "api" "2.0.1" VersionStatus.draft [])).1 =
      Except.ok CompatLevel.patch ∧
    claimedCompatibilityLevel c1State.versions "api" "2.0.1" = CompatLevel.major ∧
    CompatLevel.patch ≠ CompatLevel.major :=
  ⟨rfl, rfl, by decide⟩

theorem semverLe_total (a b : Semver) : semverLe a b ∨ semverLe b a := by
  rcases a with ⟨a1, a2, a3⟩
  rcases b with ⟨b1, b2, b3⟩
  unfold semverLe semverLt
  simp only [Semver.mk.injEq]
  omega

theorem semverLe_trans {a b c : Semver} (hab : semverLe a b) (hbc : semverLe b c) :
    semverLe a c := by
  rcases a with ⟨a1, a2, a3⟩
  rcases b with ⟨b1, b2, b3⟩
  rcases c with ⟨c1, c2, c3⟩
  unfold semverLe semverLt at hab hbc ⊢
  simp only [Semver.mk.injEq] at hab hbc ⊢
  omega

instance : IsTotal APIVersion semverLeV :=
  ⟨fun a b => semverLe_total (semverKey a.version) (semverKey b.version)⟩

instance : IsTrans APIVersion semverLeV :=
  ⟨fun _ _ _ hab hbc => semverLe_trans hab hbc⟩

theorem deprecateVersion_ok {st : StoreState} {now : Nat} {a b : String}
    {plan : Option DeprecationPlan} {rec : APIVersion}
    (hfind : getVersion st.versions a b = some rec)
    (hpub : rec.status = VersionStatus.published) :
    deprecateVersion st now a b plan =
      (Except.ok (), { st with versions := updateVersionRecord st.versions a b (depUpdate now plan) }) := by
  unfold deprecateVersion
  rw [hfind]
  dsimp only
  rw [if_neg (by simp [hpub])]

/-- The store state reached by deprecating every record of the given key
list: each record whose key is listed is rewritten by `depUpdate`, all
others stay. -/
def depEachResult (now : Nat) (plan : DeprecationPlan) (todo : List APIVersion) (st : StoreState) : StoreState :=
  { st with versions := st.versions.map (fun w => if vkey w ∈ todo.map vkey then depUpdate now (some plan) w else w) }

theorem deprecateEach_ok (now : Nat) (plan : DeprecationPlan) :
    ∀ (todo : List APIVersion) (st : StoreState),
      (∀ w ∈ todo, getVersion st.versions w.apiId w.version = some w) →
      (∀ w ∈ todo, w.status = VersionStatus.published) →
      (todo.map vkey).Nodup →
      deprecateEach now plan todo st = (Except.ok (), depEachResult now plan todo st) := by
  intro todo
  induction todo with
  | nil =>
    intro st _ _ _
    show (Except.ok (), st) = (Except.ok (), depEachResult now plan [] st)
    have hsame : depEachResult now plan [] st = st := by
      unfold depEachResult
      rw [List.map_congr_left (g := id) (fun w _ => by simp), List.map_id]
    rw [hsame]
  | cons v rest ih =>
    intro st hfind hpub hnd
    have hv := hfind v (List.mem_cons_self _ _)
    have hdep := @deprecateVersion_ok st now v.apiId v.version (some plan) v hv (hpub v (List.mem_cons_self _ _))
    have hndc := hnd
    simp only [List.map_cons, List.nodup_cons] at hndc
    show deprecateEach now plan (v :: rest) st = _
    rw [deprecateEach, hdep]
    dsimp only
    set st1 : StoreState := { st with versions := updateVersionRecord st.versions v.apiId v.version (depUpdate now (some plan)) } with hst1
    have h1 : ∀ w ∈ rest, getVersion st1.versions w.apiId w.version = some w := by
      intro w hw
      have hkey : ¬(vkey w = vkey v) := by
        intro he
        exact hndc.1 (he ▸ List.mem_map_of_mem vkey hw)
      rw [hst1]
      dsimp only
      rw [getVersion_updateVersionRecord (fun u => depUpdate_keyPres now (some plan) u)]
      rw [hfind w (List.mem_cons_of_mem _ hw)]
      simp only [Option.map_some']
      rw [if_neg ?hcond]
      case hcond =>
        intro hcontra
        apply hkey
        have h1 := getVersion_some_key (hfind w (List.mem_cons_of_mem _ hw))
        unfold vkey
        rw [hcontra.1, hcontra.2]
    have h2 : ∀ w ∈ rest, w.status = VersionStatus.published :=
      fun w hw => hpub w (List.mem_cons_of_mem _ hw)
    rw [ih st1 h1 h2 hndc.2]
    have hlist : st1.versions.map
        (fun w => if vkey w ∈ rest.map vkey then depUpdate now (some plan) w else w) =
        st.versions.map
          (fun w => if vkey w ∈ (v :: rest).map vkey then depUpdate now (some plan) w else w) := by
      rw [hst1]
      dsimp only
      unfold updateVersionRecord
      rw [List.map_map]
      apply List.map_congr_left
      intro w _
      simp only [Function.comp]
      by_cases hwv : w.apiId = v.apiId ∧ w.version = v.version
      · rw [if_pos hwv]
        have hkv : vkey (depUpdate now (some plan) w) = vkey v := by
          unfold vkey depUpdate
          simp [hwv.1, hwv.2]
        have hnr : vkey (depUpdate now (some plan) w) ∉ rest.map vkey := by
          rw [hkv]
          exact hndc.1
        rw [if_neg hnr]
        have hin : vkey w ∈ (v :: rest).map vkey := by
          have : vkey w = vkey v := by unfold vkey; rw [hwv.1, hwv.2]
          rw [List.map_cons, this]
          exact List.mem_cons_self _ _
        rw [if_pos hin]
      · rw [if_neg hwv]
        have hne : ¬(vkey w = vkey v) := by
          intro he
          apply hwv
          unfold vkey at he
          exact ⟨congrArg Prod.fst he, congrArg Prod.snd he⟩
        by_cases hr : vkey w ∈ rest.map vkey
        · rw [if_pos hr, if_pos (by rw [List.map_cons]; exact List.mem_cons_of_mem _ hr)]
        · rw [if_neg hr, if_neg ?hno]
          case hno =>
            rw [List.map_cons]
            intro hcontra
            rcases List.mem_cons.mp hcontra with he | hm
            · exact hne he
            · exact hr hm
    show (Except.ok (), depEachResult now plan rest st1) =
      (Except.ok (), depEachResult now plan (v :: rest) st)
    unfold depEachResult
    rw [hst1]
    dsimp only
    rw [hst1] at hlist
    dsimp only at hlist
    rw [hlist]

theorem keys_nodup_putVersion {vs : List APIVersion} {v : APIVersion}
    (hnd : (vs.map vkey).Nodup) (habsent : getVersion vs v.apiId v.version = none) :
    ((putVersion vs v).map vkey).Nodup := by
  rw [putVersion_of_absent habsent, List.map_append]
  rw [List.nodup_append]
  refine ⟨hnd, List.nodup_singleton _, ?_⟩
  intro k hk hk1
  simp only [List.map_cons, List.map_nil, List.mem_singleton] at hk1
  subst hk1
  rw [List.mem_map] at hk
  obtain ⟨w, hw, hkw⟩ := hk
  have hne := getVersion_eq_none.mp habsent w hw
  apply hne
  unfold vkey at hkw
  exact ⟨congrArg Prod.fst hkw, congrArg Prod.snd hkw⟩

theorem length_filter_not_add (p : APIVersion → Bool) (l : List APIVersion) :
    (l.filter (fun a => !p a)).length + (l.filter p).length = l.length := by
  induction l with
  | nil => rfl
  | cons a l ih =>
    cases h : p a with
    | true =>
      simp [List.filter_cons, h]
      omega
    | false =>
      simp [List.filter_cons, h]
      omega

/-- The versions `applyLifecyclePolicy` selects for deprecation after the
record `v` has been stored: the published records of the api sorted by
ascending semantic-version precedence, truncated to the excess over the
policy cap. -/
def lifecycleToDeprecate (s : StoreState) (v : APIVersion) (maxV : Nat) : List APIVersion :=
  (List.insertionSort semverLeV (activePublished (putVersion s.versions v) v.apiId)).take
    ((activePublished (putVersion s.versions v) v.apiId).length - maxV)

/-- C3: when a `createVersion` succeeds on a store with distinct record
keys, a configured policy, and more published versions than the cap
(counted after the insert), then exactly the excess oldest published
versions are deprecated: each selected record is rewritten to deprecated
with the plan whose support end is now plus the support period and whose
replacement is the new version, every other record is untouched, the
selected records were published, their number is the excess, exactly
`maxVersions` published versions remain, and every selected record
precedes every surviving published record in semantic-version order. -/
theorem C3_lifecycle_eviction (s : StoreState) (now : Nat) (input : VersionInput)
    (v : APIVersion) (s' : StoreState) (policy : APILifecyclePolicy)
    (hnd : (s.versions.map vkey).Nodup)
    (hok : createVersion s now input = (Except.ok v, s'))
    (hpol : getLifecyclePolicy s.policies input.apiId = some policy)
    (hcount : policy.policy.maxVersions <
      (activePublished (putVersion s.versions v) v.apiId).length) :
    (∀ w ∈ lifecycleToDeprecate s v policy.policy.maxVersions,
      getVersion s'.versions w.apiId w.version =
        some (depUpdate now (some (lifecyclePlan now policy.policy.supportPeriod v.version)) w)) ∧
    (∀ w ∈ lifecycleToDeprecate s v policy.policy.maxVersions,
      w.status = VersionStatus.published) ∧
    (∀ u ∈ putVersion s.versions v,
      vkey u ∉ (lifecycleToDeprecate s v policy.policy.maxVersions).map vkey →
      getVersion s'.versions u.apiId u.version = some u) ∧
    (lifecycleToDeprecate s v policy.policy.maxVersions).length =
      (activePublished (putVersion s.versions v) v.apiId).length - policy.policy.maxVersions ∧
    (activePublished s'.versions v.apiId).length = policy.policy.maxVersions ∧
    (∀ d ∈ lifecycleToDeprecate s v policy.policy.maxVersions,
      ∀ q ∈ activePublished (putVersion s.versions v) v.apiId,
        q ∉ lifecycleToDeprecate s v policy.policy.maxVersions →
        semverLe (semverKey d.version) (semverKey q.version)) := by
  obtain ⟨hvalid, hdup, hb, happ⟩ := createVersion_ok_elim hok
  subst hb
  unfold lifecycleToDeprecate
  have hver : (storeSpecification
      { s with versions := putVersion s.versions (builtRecord s now input) }
      (builtRecord s now input)).versions = putVersion s.versions (builtRecord s now input) :=
    storeSpecification_versions _ _
  have hpol2 : getLifecyclePolicy (storeSpecification
      { s with versions := putVersion s.versions (builtRecord s now input) }
      (builtRecord s now input)).policies (builtRecord s now input).apiId = some policy := by
    rw [storeSpecification_policies]
    exact hpol
  unfold applyLifecyclePolicy at happ
  rw [hpol2] at happ
  dsimp only at happ
  rw [hver] at happ
  rw [if_pos hcount] at happ
  have hnd' : ((putVersion s.versions (builtRecord s now input)).map vkey).Nodup :=
    keys_nodup_putVersion hnd hdup
  have hsub1 : List.Sublist (activePublished (putVersion s.versions (builtRecord s now input))
      (builtRecord s now input).apiId) (putVersion s.versions (builtRecord s now input)) := by
    unfold activePublished getVersions
    exact List.Sublist.trans (List.filter_sublist _) (List.filter_sublist _)
  set active := activePublished (putVersion s.versions (builtRecord s now input))
    (builtRecord s now input).apiId with hactive
  set sorted := List.insertionSort semverLeV active with hsorteddef
  set k := active.length - policy.policy.maxVersions with hkdef
  set toDep := sorted.take k with htddef
  have hperm : List.Perm sorted active := List.perm_insertionSort _ _
  have hsorted : List.Sorted semverLeV sorted := List.sorted_insertionSort _ _
  have hnd_active : (active.map vkey).Nodup :=
    List.Nodup.sublist (List.Sublist.map vkey hsub1) hnd'
  have hnd_sorted : (sorted.map vkey).Nodup := ((hperm.map vkey).nodup_iff).mpr hnd_active
  have htdsub : List.Sublist toDep sorted := List.take_sublist _ _
  have hnd_toDep : (toDep.map vkey).Nodup :=
    List.Nodup.sublist (List.Sublist.map vkey htdsub) hnd_sorted
  have hmem_act : ∀ w ∈ toDep, w ∈ active := fun w hw => (hperm.mem_iff).mp (htdsub.subset hw)
  have hmem_vs2 : ∀ w ∈ toDep, w ∈ putVersion s.versions (builtRecord s now input) :=
    fun w hw => hsub1.subset (hmem_act w hw)
  have hpub_toDep : ∀ w ∈ toDep, w.status = VersionStatus.published := by
    intro w hw
    have hw' := hmem_act w hw
    rw [hactive] at hw'
    unfold activePublished at hw'
    rw [List.mem_filter] at hw'
    simpa using hw'.2
  have hfind_toDep : ∀ w ∈ toDep,
      getVersion (storeSpecification
        { s with versions := putVersion s.versions (builtRecord s now input) }
        (builtRecord s now input)).versions w.apiId w.version = some w := by
    intro w hw
    rw [hver]
    exact mem_nodupKeys_getVersion (hmem_vs2 w hw) hnd'
  rw [deprecateEach_ok now _ toDep _ hfind_toDep hpub_toDep hnd_toDep] at happ
  have hs' : s' = depEachResult now
      (lifecyclePlan now policy.policy.supportPeriod (builtRecord s now input).version) toDep
      (storeSpecification { s with versions := putVersion s.versions (builtRecord s now input) }
        (builtRecord s now input)) := (congrArg Prod.snd happ).symm
  subst hs'
  have hfversions : (depEachResult now
      (lifecyclePlan now policy.policy.supportPeriod (builtRecord s now input).version) toDep
      (storeSpecification { s with versions := putVersion s.versions (builtRecord s now input) }
        (builtRecord s now input))).versions =
      (putVersion s.versions (builtRecord s now input)).map
        (fun w => if vkey w ∈ toDep.map vkey then depUpdate now
          (some (lifecyclePlan now policy.policy.supportPeriod
            (builtRecord s now input).version)) w else w) := by
    unfold depEachResult
    dsimp only
    rw [hver]
  have hfkeys : ∀ w : APIVersion,
      ((fun w => if vkey w ∈ toDep.map vkey then depUpdate now
          (some (lifecyclePlan now policy.policy.supportPeriod
            (builtRecord s now input).version)) w else w) w).apiId = w.apiId ∧
      ((fun w => if vkey w ∈ toDep.map vkey then depUpdate now
          (some (lifecyclePlan now policy.policy.supportPeriod
            (builtRecord s now input).version)) w else w) w).version = w.version := by
    intro w
    dsimp only
    by_cases hw : vkey w ∈ toDep.map vkey
    · rw [if_pos hw]
      exact depUpdate_keyPres _ _ _
    · rw [if_neg hw]
      exact ⟨rfl, rfl⟩
  refine ⟨?_, hpub_toDep, ?_, ?_, ?_, ?_⟩
  · intro w hw
    rw [hfversions, getVersion_map_keyPres hfkeys,
      mem_nodupKeys_getVersion (hmem_vs2 w hw) hnd']
    simp only [Option.map_some']
    rw [if_pos (List.mem_map_of_mem vkey hw)]
  · intro u hu hnotin
    rw [hfversions, getVersion_map_keyPres hfkeys, mem_nodupKeys_getVersion hu hnd']
    simp only [Option.map_some']
    rw [if_neg hnotin]
  · rw [List.length_take]
    have hlen : sorted.length = active.length := hperm.length_eq
    omega
  · rw [hfversions]
    have hgv : getVersions ((putVersion s.versions (builtRecord s now input)).map
        (fun w => if vkey w ∈ toDep.map vkey then depUpdate now
          (some (lifecyclePlan now policy.policy.supportPeriod
            (builtRecord s now input).version)) w else w)) (builtRecord s now input).apiId =
        (getVersions (putVersion s.versions (builtRecord s now input))
          (builtRecord s now input).apiId).map
          (fun w => if vkey w ∈ toDep.map vkey then depUpdate now
            (some (lifecyclePlan now policy.policy.supportPeriod
              (builtRecord s now input).version)) w else w) := by
      unfold getVersions
      rw [List.filter_map]
      refine congrArg _ (List.filter_congr ?_)
      intro w _
      dsimp only [Function.comp]
      rw [congrArg (fun a => decide (a = (builtRecord s now input).apiId)) (hfkeys w).1]
    show (activePublished _ _).length = _
    unfold activePublished
    rw [hgv, List.filter_map]
    rw [List.length_map]
    have hpf : (getVersions (putVersion s.versions (builtRecord s now input))
        (builtRecord s now input).apiId).filter
          ((fun v => decide (v.status = VersionStatus.published)) ∘
            (fun w => if vkey w ∈ toDep.map vkey then depUpdate now
              (some (lifecyclePlan now policy.policy.supportPeriod
                (builtRecord s now input).version)) w else w)) =
        active.filter (fun w => !decide (vkey w ∈ toDep.map vkey)) := by
      rw [hactive]
      unfold activePublished
      rw [List.filter_filter]
      refine List.filter_congr ?_
      intro w _
      dsimp only [Function.comp]
      by_cases hw : vkey w ∈ toDep.map vkey
      · rw [if_pos hw]
        simp [depUpdate, hw]
      · rw [if_neg hw]
        simp [hw]
    rw [hpf]
    have hkcount : (active.filter (fun w => decide (vkey w ∈ toDep.map vkey))).length = k := by
      have hpermf : List.Perm (active.filter (fun w => decide (vkey w ∈ toDep.map vkey)))
          (sorted.filter (fun w => decide (vkey w ∈ toDep.map vkey))) :=
        List.Perm.filter _ hperm.symm
      have h0 : toDep ++ sorted.drop k = sorted := by
        rw [htddef]
        exact List.take_append_drop k sorted
      have hndsp : (toDep.map vkey ++ (sorted.drop k).map vkey).Nodup := by
        rw [← List.map_append, h0]
        exact hnd_sorted
      have hdisj := (List.nodup_append.mp hndsp).2.2
      have hsfil : sorted.filter (fun w => decide (vkey w ∈ toDep.map vkey)) =
          toDep.filter (fun w => decide (vkey w ∈ toDep.map vkey)) ++
            (sorted.drop k).filter (fun w => decide (vkey w ∈ toDep.map vkey)) := by
        rw [← List.filter_append, h0]
      have htfil : toDep.filter (fun w => decide (vkey w ∈ toDep.map vkey)) = toDep := by
        rw [List.filter_eq_self]
        intro a ha
        simpa using List.mem_map_of_mem vkey ha
      have hdfil : (sorted.drop k).filter (fun w => decide (vkey w ∈ toDep.map vkey)) = [] := by
        rw [List.filter_eq_nil_iff]
        intro a ha hin
        have hmem : vkey a ∈ (sorted.drop k).map vkey := List.mem_map_of_mem vkey ha
        have hink : vkey a ∈ toDep.map vkey := by simpa using hin
        exact hdisj hink hmem
      have hlen : sorted.length = active.length := hperm.length_eq
      have htdlen : toDep.length = k := by
        rw [htddef, List.length_take]
        omega
      rw [hpermf.length_eq, hsfil, htfil, hdfil, List.length_append]
      simpa using htdlen
    have hsplit := length_filter_not_add (fun w => decide (vkey w ∈ toDep.map vkey)) active
    rw [hkcount] at hsplit
    omega
  · intro d hd q hq hqn
    have h0 : toDep ++ sorted.drop k = sorted := by
      rw [htddef]
      exact List.take_append_drop k sorted
    have hcross : ∀ a ∈ toDep, ∀ b ∈ sorted.drop k, semverLeV a b := by
      have hsp : List.Pairwise semverLeV (toDep ++ sorted.drop k) := by
        rw [h0]
        exact hsorted
      exact fun a ha b hb => (List.pairwise_append.mp hsp).2.2 a ha b hb
    have hqs : q ∈ sorted := (hperm.mem_iff).mpr hq
    have hqd : q ∈ sorted.drop k := by
      have hqs' : q ∈ toDep ++ sorted.drop k := by
        rw [h0]
        exact hqs
      rcases List.mem_append.mp hqs' with h1 | h2
      · exact absurd h1 hqn
      · exact h2
    exact hcross d hd q hqd

/-- The concrete store used by the C3 witness: five published versions of
one api under a lifecycle policy capping published versions at five. -/
def c3State : StoreState :=
  { versions := [mkRecord "api" "1.0.0" VersionStatus.published [],
      mkRecord "api" "1.1.0" VersionStatus.published [],
      mkRecord "api" "1.2.0" VersionStatus.published [],
      mkRecord "api" "1.3.0" VersionStatus.published [],
      mkRecord "api" "1.4.0" VersionStatus.published []]
    policies := [mkPolicy "api" 5 90]
    migrationPlans := []
    specObjects := [] }

/-- The caller input of the C3 witness: a sixth version created directly
in status published. -/
def c3Input : VersionInput :=
  mkInput "api" "1.5.0" VersionStatus.published []

/-- Witness for C3: publishing the sixth version under the cap of five
deprecates exactly the oldest published version 1.0.0, attaching the plan
with support end 90 days after creation and the new version as
replacement, and leaves exactly five published versions. -/
theorem C3_lifecycle_eviction_witness :
    (createVersion c3State 1000 c3Input).1 = Except.ok (builtRecord c3State 1000 c3Input) ∧
    lifecycleToDeprecate c3State (builtRecord c3State 1000 c3Input) 5 =
      [mkRecord "api" "1.0.0" VersionStatus.published []] ∧
    getVersion (createVersion c3State 1000 c3Input).2.versions "api" "1.0.0" =
      some (depUpdate 1000 (some (lifecyclePlan 1000 90 "1.5.0"))
        (mkRecord "api" "1.0.0" VersionStatus.published [])) ∧
    (activePublished (createVersion c3State 1000 c3Input).2.versions "api").length = 5 := by
  have h := C3_lifecycle_eviction c3State 1000 c3Input (builtRecord c3State 1000 c3Input)
    (createVersion c3State 1000 c3Input).2 (mkPolicy "api" 5 90)
    (by decide) rfl rfl (by decide)
  refine ⟨rfl, rfl, ?_, ?_⟩
  · exact h.1 (mkRecord "api" "1.0.0" VersionStatus.published []) (by decide)
  · exact h.2.2.2.2.1
